import Mathlib

/-
  Verification development for the grid-trading decision engine of the
  binance-grid-bot repository (src/grid_bot/base_strategy.py, with the
  paper-mode I/O behavior of src/grid_bot/backtest_strategy.py and the
  live-mode I/O behavior of src/grid_bot/live_strategy.py).

  Shallow embedding conventions:
  - Python floats are modelled as rationals; the explicit decimal roundings
    of the source, round(x, 4) and round(x, 6), are modelled by roundTo,
    rounding half away from zero upwards (Mathlib round, floor of x + 1/2).
    Python rounds half to even; the two agree except on exact .5 ties, and
    no statement below sits on such a tie.
  - The mutable strategy object is the explicit state St.  Collaborator
    calls (exchange, database) either have no effect on the strategy state
    (pure logging and persistence) and are dropped, or return data that is
    passed in as an argument (the indicator row of a bar, the entry price
    returned by the hedge-open call).
  - Calls that the source wraps in try/except are modelled as always
    succeeding, because a caught failure only logs.  The two calls the buy
    and sell passes make WITHOUT a try/except (the spot order placement,
    base_strategy.py lines 930 and 997) are modelled in an error monad:
    processBuyLevels and processSellPositions take a failure oracle and
    return Except St St, where the error value carries the state at the
    moment the exception propagates (Python keeps mutations made so far).
  - mode in (backtest, forward_test) is Cfg.paper = true; mode = live is
    Cfg.paper = false.
  - The per-bar pipeline processBar is steps 4-6 of on_bar: ladder
    init/recalc/recenter, buy pass, sell pass, hedge pass.  The indicator
    row (step 1-2) is an input; the DB reload of grid state (step 3) is
    omitted, in-memory state being authoritative across consecutive bars.
-/

namespace GridBot

/-- Rounding to d decimal places, as Python round(x, d) up to the tie rule. -/
def roundTo (d : ℕ) (x : ℚ) : ℚ := ((round (x * (10 : ℚ) ^ d) : ℤ) : ℚ) / (10 : ℚ) ^ d

/-- Configuration attributes set in BaseGridStrategy.__init__. -/
structure Cfg where
  paper : Bool
  grid_levels : ℕ
  atr_multiplier : ℚ
  spot_fee_rate : ℚ
  vol_up_ratio : ℚ
  vol_down_ratio : ℚ
  drift_k : ℚ
  hedge_size_ratio : ℚ
  hedge_leverage : ℤ
  hedge_open_k_atr : ℚ
  hedge_tp_ratio : ℚ
  hedge_sl_ratio : ℚ
  min_hedge_notional : ℚ
  hedge_max_loss_ratio : ℚ
  hedge_min_hold_ms : ℤ
deriving DecidableEq

/-- The default configuration values of BaseGridStrategy.__init__ (paper mode),
    parameterised by the constructor arguments grid_levels and atr_multiplier. -/
def defaultCfg (paper : Bool) (grid_levels : ℕ) (atr_multiplier : ℚ) : Cfg where
  paper := paper
  grid_levels := grid_levels
  atr_multiplier := atr_multiplier
  spot_fee_rate := 1/1000
  vol_up_ratio := 3/2
  vol_down_ratio := 7/10
  drift_k := 5/2
  hedge_size_ratio := 1/2
  hedge_leverage := 2
  hedge_open_k_atr := 1/2
  hedge_tp_ratio := 1/20
  hedge_sl_ratio := 1/10
  min_hedge_notional := 5
  hedge_max_loss_ratio := 1
  hedge_min_hold_ms := 5 * 60 * 1000

/-- A spot Position (grid_bot/datas/position.py), restricted to the fields
    the decision logic reads: entry_price, qty, grid_price, target_price. -/
structure Position where
  entry_price : ℚ
  qty : ℚ
  grid_price : ℚ
  target_price : ℚ
deriving DecidableEq

/-- The hedge_position dict: qty, entry, timestamp. -/
structure Hedge where
  qty : ℚ
  entry : ℚ
  timestamp : ℤ
deriving DecidableEq

/-- The mutable strategy state.  grid_filled models the Python dict through
    its lookup function: grid_filled.get(p, False) is grid_filled p. -/
structure St where
  available_capital : ℚ
  reserve_capital : ℚ
  futures_available_margin : ℚ
  realized_grid_profit : ℚ
  grid_prices : List ℚ
  grid_filled : ℚ → Bool
  grid_spacing : ℚ
  positions : List Position
  hedge_position : Option Hedge
  pending_recenter : Option ℤ

/-- The latest indicator row a bar reads back from the OHLCV store (atr_14,
    atr_28 and the three EMAs selected by ema_fast/mid/slow_period). -/
structure Row where
  atr_14 : ℚ
  atr_28 : ℚ
  ema_fast : ℚ
  ema_mid : ℚ
  ema_slow : ℚ
deriving DecidableEq

/-- Initial money state from BaseGridStrategy.__init__: reserve and futures
    margin each get total * reserve_ratio, the rest is available capital. -/
def mkInitSt (initial_capital reserve_ratio : ℚ) : St :=
  let total := initial_capital
  let reserve := total * reserve_ratio
  let margin := total * reserve_ratio
  { available_capital := total - (reserve + margin)
    reserve_capital := reserve
    futures_available_margin := margin
    realized_grid_profit := 0
    grid_prices := []
    grid_filled := fun _ => false
    grid_spacing := 0
    positions := []
    hedge_position := none
    pending_recenter := none }

/-- The spacing chosen by _init_lower_grid: the positive override if given,
    else atr * atr_multiplier, else the 3 percent fallback when atr <= 0. -/
def initSpacing (cfg : Cfg) (base_price atr : ℚ) (spacing_override : Option ℚ) : ℚ :=
  let fallback := if atr ≤ 0 then base_price * (3/100) else atr * cfg.atr_multiplier
  match spacing_override with
  | some so => if 0 < so then so else fallback
  | none => fallback

/-- _init_lower_grid: build the lower-only ladder below base_price, each
    level rounded to 4 decimals, sorted ascending; reset the filled flags. -/
def init_lower_grid (cfg : Cfg) (base_price atr : ℚ) (spacing_override : Option ℚ) (s : St) : St :=
  let spacing := initSpacing cfg base_price atr spacing_override
  let raw := (List.range cfg.grid_levels).map
    (fun i : ℕ => roundTo 4 (base_price - spacing * ((i : ℚ) + 1)))
  let prices := List.insertionSort (· ≤ ·) raw
  { s with grid_spacing := spacing
           grid_prices := prices
           grid_filled := fun _ => false }

/-- _compute_recenter_spacing: ATR-regime spacing for a rebuilt ladder. -/
def compute_recenter_spacing (cfg : Cfg) (price atr_14 atr_28 prior_spacing : ℚ) : ℚ :=
  let spacing :=
    if 0 < atr_14 then
      let base := atr_14 * cfg.atr_multiplier
      if 0 < atr_28 then
        let r := atr_14 / atr_28
        if cfg.vol_up_ratio ≤ r then base * (13/10)
        else if r ≤ cfg.vol_down_ratio then base * (8/10)
        else base
      else base
    else if 0 < prior_spacing then prior_spacing else 0
  if spacing ≤ 0 then price * (3/100) else spacing

/-- _recalc_spacing_if_needed: soft spacing adjustment from the ATR regime. -/
def recalc_spacing_if_needed (cfg : Cfg) (atr_14 atr_28 curr_spacing : ℚ) (s : St) : ℚ :=
  if atr_14 ≤ 0 ∨ atr_28 ≤ 0 ∨ s.grid_prices = [] then curr_spacing
  else
    let old1 := if curr_spacing ≤ 0 ∧ 2 ≤ s.grid_prices.length
      then s.grid_prices.getD 1 0 - s.grid_prices.getD 0 0 else curr_spacing
    let old_spacing := if old1 ≤ 0 then atr_14 * cfg.atr_multiplier else old1
    let new_spacing :=
      if atr_28 * cfg.vol_up_ratio < atr_14 then atr_14 * cfg.atr_multiplier * 2
      else if atr_14 < atr_28 * cfg.vol_down_ratio then atr_14 * cfg.atr_multiplier * 1
      else 0
    if new_spacing ≤ 0 then old_spacing else new_spacing

/-- _compute_dynamic_order_size: spread 90 percent of free cash over the
    remaining unfilled slots, with a 5 USDT floor per order. -/
def compute_dynamic_order_size (s : St) (remaining_slots : ℕ) : ℚ :=
  if remaining_slots = 0 then 0
  else
    let tradable := s.available_capital * (1 - 1/10)
    if tradable ≤ 0 then 0 else max 5 (tradable / (remaining_slots : ℚ))

/-- The quantity bought at a level: round(order_size / level_price, 6). -/
def buyQty (order_size level_price : ℚ) : ℚ := roundTo 6 (order_size / level_price)

/-- notional + fee of a grid buy, the amount required from available capital. -/
def buyTotalCost (cfg : Cfg) (order_size level_price : ℚ) : ℚ :=
  let notional := level_price * buyQty order_size level_price
  notional + notional * cfg.spot_fee_rate

/-- The target spacing used for a new position in _process_buy_grid:
    grid_spacing, else the observed gap of the first two levels, else 2
    percent of the level price. -/
def buySpacing (s : St) (level_price : ℚ) : ℚ :=
  let sp0 := s.grid_spacing
  let sp1 := if sp0 = 0 ∧ 2 ≤ s.grid_prices.length
    then |s.grid_prices.getD 1 0 - s.grid_prices.getD 0 0| else sp0
  if sp1 = 0 then level_price * (2/100) else sp1

/-- The state mutation of one successful grid buy in _process_buy_grid:
    deduct the (clamped) cost, append the new position with its rounded
    target, mark the level filled. -/
def buyStep (cfg : Cfg) (order_size level_price : ℚ) (s : St) : St :=
  let qty := buyQty order_size level_price
  let notional := level_price * qty
  let fee := notional * cfg.spot_fee_rate
  let total_cost := notional + fee
  let target := roundTo 4 (level_price + buySpacing s level_price)
  { s with
    available_capital := max 0 (s.available_capital - total_cost)
    positions := s.positions ++ [⟨level_price, qty, level_price, target⟩]
    grid_filled := fun p => if p = level_price then true else s.grid_filled p }

/-- The level loop of _process_buy_grid.  fail is the failure oracle of the
    spot-buy placement calls, indexed in call order; a failing call raises,
    which the source does not catch, so the error propagates carrying the
    state mutated so far. -/
def processBuyLevels (cfg : Cfg) (price order_size : ℚ) (fail : ℕ → Bool) :
    List ℚ → ℕ → St → Except St St
  | [], _, s => .ok s
  | level :: rest, idx, s =>
    if price ≤ level ∧ s.grid_filled level = false then
      if s.available_capital < buyTotalCost cfg order_size level then
        processBuyLevels cfg price order_size fail rest idx s
      else if fail idx then .error s
      else processBuyLevels cfg price order_size fail rest (idx + 1)
        (buyStep cfg order_size level s)
    else processBuyLevels cfg price order_size fail rest idx s

/-- _process_buy_grid: count the unfilled slots, size the order once, then
    walk the levels in stored (ascending) order. -/
def process_buy_grid (cfg : Cfg) (price : ℚ) (fail : ℕ → Bool) (s : St) : Except St St :=
  let remaining_slots := (s.grid_prices.filter (fun p => !s.grid_filled p)).length
  if remaining_slots = 0 then .ok s
  else
    let order_size := compute_dynamic_order_size s remaining_slots
    processBuyLevels cfg price order_size fail s.grid_prices 0 s

/-- The state mutation of one sell in _process_sell_grid: paper mode credits
    notional - fee and books pnl (fee is the literal 0.0 of the source);
    both modes unmark the originating grid level. -/
def sellStep (cfg : Cfg) (price : ℚ) (p : Position) (s : St) : St :=
  let notional := price * p.qty
  let fee : ℚ := 0
  let pnl := (price - p.entry_price) * p.qty - fee
  let s1 := if cfg.paper then
      { s with available_capital := s.available_capital + (notional - fee)
               realized_grid_profit := s.realized_grid_profit + pnl }
    else s
  { s1 with grid_filled := fun q => if q = p.grid_price then false else s1.grid_filled q }

/-- The position loop of _process_sell_grid.  The remaining (not sold)
    positions are accumulated; positions itself is only reassigned after the
    loop, so a propagating placement error leaves the old list in place. -/
def processSellPositions (cfg : Cfg) (price : ℚ) (fail : ℕ → Bool) :
    List Position → ℕ → St → Except St (St × List Position)
  | [], _, s => .ok (s, [])
  | p :: rest, idx, s =>
    if price < p.target_price then
      (processSellPositions cfg price fail rest idx s).map (fun r => (r.1, p :: r.2))
    else if fail idx then .error s
    else processSellPositions cfg price fail rest (idx + 1) (sellStep cfg price p s)

/-- _process_sell_grid. -/
def process_sell_grid (cfg : Cfg) (price : ℚ) (fail : ℕ → Bool) (s : St) : Except St St :=
  (processSellPositions cfg price fail s.positions 0 s).map
    (fun r => { r.1 with positions := r.2 })

/-- The strategy state carried by either outcome of the sell loop. -/
def sellSt (e : Except St (St × List Position)) : St :=
  match e with | .ok r => r.1 | .error s => s

/-- The remaining-position list of a successful sell loop. -/
def sellRem (e : Except St (St × List Position)) : List Position :=
  match e with | .ok r => r.2 | .error _ => []

/-- The hedge quantity of a state, 0 when no hedge is open. -/
def hedgeQty (s : St) : ℚ := match s.hedge_position with | some h => h.qty | none => 0

/-- _ensure_hedge_ratio.  entry_ret is the return of the hedge-open I/O call
    (none models the live-mode failure path that returns None). -/
def ensure_hedge_ratio (cfg : Cfg) (ts : ℤ) (target_ratio price net_spot_qty : ℚ)
    (entry_ret : Option ℚ) (s : St) : St :=
  let current_qty := hedgeQty s
  let current_ratio := if 0 < net_spot_qty then current_qty / net_spot_qty else 0
  if target_ratio - 1/1000000 ≤ current_ratio then s
  else
    let add_ratio := target_ratio - current_ratio
    let add_qty := net_spot_qty * add_ratio
    let notional := add_qty * price
    let required_margin := notional / ((max cfg.hedge_leverage 1 : ℤ) : ℚ)
    if s.futures_available_margin = 0 then s
    else if notional < cfg.min_hedge_notional then s
    else if s.futures_available_margin ≤ 0 then s
    else if s.futures_available_margin < required_margin then s
    else
      match entry_ret with
      | none => s
      | some hedge_entry_price =>
        let h' : Hedge :=
          match s.hedge_position with
          | none => ⟨add_qty, hedge_entry_price, ts⟩
          | some old =>
            ⟨old.qty + add_qty,
             (old.entry * old.qty + hedge_entry_price * add_qty) / (old.qty + add_qty),
             old.timestamp⟩
        { s with hedge_position := some h'
                 futures_available_margin := max 0 (s.futures_available_margin - required_margin) }

/-- _close_hedge: paper mode adds pnl to available capital (unclamped) and
    restores locked margin + pnl to the futures margin (clamped at 0); the
    hedge state is cleared in every mode. -/
def close_hedge (cfg : Cfg) (price : ℚ) (s : St) : St :=
  match s.hedge_position with
  | none => s
  | some h =>
    let locked_margin := h.entry * h.qty / ((max cfg.hedge_leverage 1 : ℤ) : ℚ)
    let pnl := (h.entry - price) * h.qty
    let s1 :=
      if cfg.paper then
        { s with available_capital := s.available_capital + pnl
                 futures_available_margin :=
                   max 0 (s.futures_available_margin + locked_margin + pnl) }
      else s
    { s1 with hedge_position := none }

/-- The walk of _rebalance_spot_after_hedge over the sorted positions:
    sell a losing position when the remaining buffer covers its loss. -/
def rebalanceLoop (price : ℚ) : List Position → ℚ → List Position
  | [], _ => []
  | p :: rest, buffer =>
    let pos_unreal := (price - p.entry_price) * p.qty
    if 0 ≤ pos_unreal then p :: rebalanceLoop price rest buffer
    else
      let loss := |pos_unreal|
      if buffer < loss then p :: rebalanceLoop price rest buffer
      else rebalanceLoop price rest (buffer - loss)

/-- Ordering positions by entry price descending, as
    sorted(key=entry_price, reverse=True). -/
def posDesc (a b : Position) : Prop := b.entry_price ≤ a.entry_price

instance : DecidableRel posDesc := fun _ _ => inferInstanceAs (Decidable (_ ≤ _))

/-- _rebalance_spot_after_hedge.  The source performs the sell I/O but books
    no capital for these sells; only the position list changes. -/
def rebalance_spot_after_hedge (hedge_pnl price : ℚ) (s : St) : St :=
  if hedge_pnl ≤ 0 ∨ s.positions = [] then s
  else
    let sorted := List.insertionSort posDesc s.positions
    { s with positions := rebalanceLoop price sorted hedge_pnl }

/-- The paper-mode booking of one forced spot liquidation in
    _do_full_recenter: credit notional (no fee) and book pnl. -/
def forceCloseStep (cfg : Cfg) (price : ℚ) (acc : St) (p : Position) : St :=
  if cfg.paper then
    { acc with available_capital := acc.available_capital + price * p.qty
               realized_grid_profit :=
                 acc.realized_grid_profit + (price - p.entry_price) * p.qty }
  else acc

/-- The forced liquidation of remaining spot in _do_full_recenter: paper
    mode credits notional (no fee) and books pnl per position; the list is
    emptied (live keeps only failed sells, and sells do not fail here). -/
def forceCloseSpot (cfg : Cfg) (price : ℚ) (s : St) : St :=
  let s1 := s.positions.foldl (forceCloseStep cfg price) s
  { s1 with positions := [] }

/-- _do_full_recenter: abort if an open hedge is losing; else close it and
    rebalance on its profit, liquidate spot, reset the ladder and rebuild it
    at the current price with the ATR-regime spacing. -/
def do_full_recenter (cfg : Cfg) (price atr_14 atr_28 : ℚ) (s : St) : St :=
  let prior_spacing := s.grid_spacing
  let stage :=
    match s.hedge_position with
    | some h =>
      let hedge_pnl := (h.entry - price) * h.qty
      if hedge_pnl < 0 then none
      else some (rebalance_spot_after_hedge hedge_pnl price (close_hedge cfg price s))
    | none => some s
  match stage with
  | none => s
  | some s1 =>
    let s2 := forceCloseSpot cfg price s1
    let s3 := { s2 with grid_prices := [], grid_filled := fun _ => false,
                        grid_spacing := 0, hedge_position := none }
    let new_spacing := compute_recenter_spacing cfg price atr_14 atr_28 prior_spacing
    init_lower_grid cfg price atr_14 (some new_spacing) s3

/-- _manage_hedge_exit: deferred full recenter first, then max-loss,
    take-profit, stop-loss reversal, and reversal cut after minimum hold. -/
def manage_hedge_exit (cfg : Cfg) (ts : ℤ)
    (price spot_unrealized ema_fast ema_mid atr_14 atr_28 : ℚ) (s : St) : St :=
  match s.hedge_position with
  | none => s
  | some h =>
    let hedge_pnl := (h.entry - price) * h.qty
    if s.pending_recenter.isSome ∧ 0 ≤ hedge_pnl then
      { do_full_recenter cfg price atr_14 atr_28 s with pending_recenter := none }
    else
      let loss_to_cover := max 0 (-spot_unrealized)
      let max_loss_threshold := loss_to_cover * cfg.hedge_max_loss_ratio
      if 0 < max_loss_threshold ∧ hedge_pnl ≤ -max_loss_threshold then
        { close_hedge cfg price s with pending_recenter := none }
      else
        let tp_threshold := loss_to_cover * cfg.hedge_tp_ratio
        if 0 < tp_threshold ∧ tp_threshold ≤ hedge_pnl then
          rebalance_spot_after_hedge hedge_pnl price (close_hedge cfg price s)
        else
          let reversal := ema_fast < price ∧ ema_mid < ema_fast
          let sl_threshold := |spot_unrealized| * cfg.hedge_sl_ratio
          if reversal ∧ hedge_pnl ≤ -sl_threshold ∧ -sl_threshold < 0 then
            { close_hedge cfg price s with pending_recenter := none }
          else
            let hold_ms := max 0 (ts - h.timestamp)
            if reversal ∧ hedge_pnl < 0 ∧ cfg.hedge_min_hold_ms ≤ hold_ms then
              { close_hedge cfg price s with pending_recenter := none }
            else s

/-- Total spot quantity of the open positions. -/
def sumQty (ps : List Position) : ℚ := (ps.map Position.qty).sum

/-- Total entry cost of the open positions. -/
def sumEntryQty (ps : List Position) : ℚ := (ps.map (fun p => p.entry_price * p.qty)).sum

/-- The half-inventory stop-loss walk of _recenter_downtrend, selling from
    the highest entry first; partially sold positions keep their remainder. -/
def downtrendSellLoop (cfg : Cfg) (price : ℚ) :
    List Position → ℚ → St → St × List Position
  | [], _, s => (s, [])
  | p :: rest, qty_to_sl, s =>
    if qty_to_sl ≤ 0 then
      let r := downtrendSellLoop cfg price rest qty_to_sl s
      (r.1, p :: r.2)
    else
      let sell_qty := min p.qty qty_to_sl
      let s1 :=
        if cfg.paper then
          { s with available_capital := s.available_capital + price * sell_qty
                   realized_grid_profit :=
                     s.realized_grid_profit + (price - p.entry_price) * sell_qty }
        else s
      let remaining_qty := p.qty - sell_qty
      let r := downtrendSellLoop cfg price rest (qty_to_sl - sell_qty) s1
      if 0 < remaining_qty then (r.1, { p with qty := remaining_qty } :: r.2)
      else (r.1, r.2)

/-- _recenter_downtrend: sell half the aggregate spot (worst entries first),
    then scale the hedge to cover the remainder.  The pending_recenter flag
    is set by the caller (_maybe_recenter_grid), not here. -/
def recenter_downtrend (cfg : Cfg) (ts : ℤ) (price : ℚ) (s : St) : St :=
  let total_qty := sumQty s.positions
  if total_qty ≤ 0 then s
  else
    let sorted := List.insertionSort posDesc s.positions
    let r := downtrendSellLoop cfg price sorted (total_qty * (1/2)) s
    let s1 := { r.1 with positions := r.2 }
    let remaining_qty := sumQty s1.positions
    if remaining_qty ≤ 0 then s1
    else ensure_hedge_ratio cfg ts 1 price remaining_qty (some price) s1

/-- The profitable-position sweep of _recenter_uptrend. -/
def sellProfitableLoop (cfg : Cfg) (price : ℚ) : List Position → St → St × List Position
  | [], s => (s, [])
  | p :: rest, s =>
    let unreal := (price - p.entry_price) * p.qty
    if 0 < unreal then
      let s1 :=
        if cfg.paper then
          { s with available_capital := s.available_capital + price * p.qty
                   realized_grid_profit := s.realized_grid_profit + unreal }
        else s
      sellProfitableLoop cfg price rest s1
    else
      let r := sellProfitableLoop cfg price rest s
      (r.1, p :: r.2)

/-- Steps 1-4 of _recenter_uptrend after the hedge handling: sell the
    profitable positions, reset the ladder and rebuild it at the current
    price.  The prior spacing passed to the spacing computation is read
    AFTER the reset, as in the source, so it is 0 here. -/
def recenterUptrendTail (cfg : Cfg) (price atr_14 atr_28 : ℚ) (s0 : St) : St :=
  let r := sellProfitableLoop cfg price s0.positions s0
  let s1 := { r.1 with positions := r.2 }
  let s2 := { s1 with grid_prices := [], grid_filled := fun _ => false, grid_spacing := 0 }
  let new_spacing := compute_recenter_spacing cfg price atr_14 atr_28 s2.grid_spacing
  init_lower_grid cfg price atr_14 (some new_spacing) s2

/-- _recenter_uptrend: close a non-losing hedge first, then the tail. -/
def recenter_uptrend (cfg : Cfg) (price atr_14 atr_28 : ℚ) (s : St) : St :=
  let s0 :=
    match s.hedge_position with
    | some h => if 0 ≤ (h.entry - price) * h.qty then close_hedge cfg price s else s
    | none => s
  recenterUptrendTail cfg price atr_14 atr_28 s0

/-- Trend classification of _get_trend_direction. -/
inductive Trend | down | up | sideways
deriving DecidableEq

/-- _get_trend_direction on the EMA row. -/
def get_trend_direction (price ema_fast ema_mid ema_slow : ℚ) : Trend :=
  if price < ema_fast ∧ ema_fast < ema_mid ∧ ema_mid < ema_slow then .down
  else if ema_fast < price ∧ ema_mid < ema_fast then .up
  else .sideways

/-- The spacing estimate of _maybe_recenter_grid: grid_spacing, else the gap
    of the first two levels, else atr * atr_multiplier when atr is positive. -/
def recenterSpacingGuess (cfg : Cfg) (atr_14 : ℚ) (s : St) : ℚ :=
  let sp0 := s.grid_spacing
  let sp1 := if sp0 ≤ 0 ∧ 2 ≤ s.grid_prices.length
    then s.grid_prices.getD 1 0 - s.grid_prices.getD 0 0 else sp0
  if sp1 ≤ 0 ∧ 0 < atr_14 then atr_14 * cfg.atr_multiplier else sp1

/-- min of the ladder. -/
def gridLowest (s : St) : ℚ := (s.grid_prices.min?).getD 0

/-- max of the ladder. -/
def gridHighest (s : St) : ℚ := (s.grid_prices.max?).getD 0

/-- filled_levels / total levels. -/
def fillRatio (s : St) : ℚ :=
  if s.grid_prices = [] then 0
  else ((s.grid_prices.filter (fun p => s.grid_filled p)).length : ℚ) / (s.grid_prices.length : ℚ)

/-- The recenter trigger of _maybe_recenter_grid: drift beyond the ladder by
    spacing * drift_k, or fill ratio above 0.7. -/
def needRecenterB (cfg : Cfg) (price spacing : ℚ) (s : St) : Bool :=
  decide (gridHighest s + spacing * cfg.drift_k < price) ||
  decide (price < gridLowest s - spacing * cfg.drift_k) ||
  decide (7/10 < fillRatio s)

/-- _maybe_recenter_grid: decide the trigger, classify the trend, and
    dispatch to the downtrend, uptrend or sideways recenter.  The downtrend
    path sets pending_recenter and does not rebuild the ladder. -/
def maybe_recenter_grid (cfg : Cfg) (ts : ℤ) (price atr_14 atr_28 : ℚ) (row : Row)
    (s : St) : St :=
  if s.grid_prices = [] then s
  else
    let spacing := recenterSpacingGuess cfg atr_14 s
    if spacing ≤ 0 then s
    else if !(needRecenterB cfg price spacing s) then s
    else
      match get_trend_direction price row.ema_fast row.ema_mid row.ema_slow with
      | .down => { recenter_downtrend cfg ts price s with pending_recenter := some ts }
      | .up => recenter_uptrend cfg price atr_14 atr_28 s
      | .sideways =>
        match s.hedge_position with
        | some h =>
          if (h.entry - price) * h.qty < 0 then s
          else do_full_recenter cfg price atr_14 atr_28 s
        | none => do_full_recenter cfg price atr_14 atr_28 s

/-- _process_hedge: the danger-zone and break-below scale-ins followed by
    the exit evaluation, guarded on a live ladder, open positions and valid
    indicators. -/
def process_hedge (cfg : Cfg) (ts : ℤ) (price : ℚ) (row : Row) (s : St) : St :=
  if s.grid_prices = [] ∨ s.positions = [] then s
  else
    let atr := row.atr_14
    if atr ≤ 0 ∨ row.ema_fast = 0 ∨ row.ema_mid = 0 ∨ row.ema_slow = 0 then s
    else
      let net_spot_qty := sumQty s.positions
      if net_spot_qty ≤ 0 then s
      else
        let avg_spot_cost := sumEntryQty s.positions / net_spot_qty
        let spot_unrealized := (price - avg_spot_cost) * net_spot_qty
        let grid_sorted := List.insertionSort (· ≤ ·) s.grid_prices
        let lowest := grid_sorted.getD 0 0
        let second := if 1 < grid_sorted.length then grid_sorted.getD 1 0 else lowest
        let in_danger_zone := lowest ≤ price ∧ price ≤ second
        let downtrend_light := price < row.ema_fast ∧ row.ema_fast < row.ema_mid
        let downtrend_strong := downtrend_light ∧ row.ema_mid < row.ema_slow
        let s1 := if in_danger_zone ∧ downtrend_light then
            ensure_hedge_ratio cfg ts (3/10) price net_spot_qty (some price) s else s
        let price_break := price < lowest - cfg.hedge_open_k_atr * atr
        let s2 := if price_break ∧ downtrend_strong then
            ensure_hedge_ratio cfg ts cfg.hedge_size_ratio price net_spot_qty (some price) s1
          else s1
        manage_hedge_exit cfg ts price spot_unrealized row.ema_fast row.ema_mid
          row.atr_14 row.atr_28 s2

/-- Collapse of the error monad for the all-success pipeline: with the
    never-failing oracle the error constructor is unreachable. -/
def runE (e : Except St St) : St := match e with | .ok s => s | .error s => s

/-- The oracle under which every collaborator call succeeds. -/
def noFail : ℕ → Bool := fun _ => false

/-- A bar as the decision layer sees it: timestamp, close price, and the
    indicator row computed and stored for that bar. -/
structure BarIn where
  ts : ℤ
  price : ℚ
  row : Row
deriving DecidableEq

/-- Steps 4-6 of on_bar: ladder init or spacing recalc and recenter check,
    buy pass, sell pass, hedge pass. -/
def processBar (cfg : Cfg) (b : BarIn) (s : St) : St :=
  let s1 :=
    if s.grid_prices = [] then init_lower_grid cfg b.price b.row.atr_14 none s
    else
      let old_spacing := s.grid_spacing
      let new_spacing := recalc_spacing_if_needed cfg b.row.atr_14 b.row.atr_28 old_spacing s
      let s' := if 0 < old_spacing ∧ 1/5 < |new_spacing - old_spacing| / old_spacing
        then { s with grid_spacing := new_spacing } else s
      maybe_recenter_grid cfg b.ts b.price b.row.atr_14 b.row.atr_28 b.row s'
  let s2 := runE (process_buy_grid cfg b.price noFail s1)
  let s3 := runE (process_sell_grid cfg b.price noFail s2)
  process_hedge cfg b.ts b.price b.row s3

/-- A sequence of processed bars. -/
def processBars (cfg : Cfg) (bars : List BarIn) (s : St) : St :=
  bars.foldl (fun acc b => processBar cfg b acc) s

/-- The positions the sell pass liquidates at a price: target reached. -/
def soldPositions (price : ℚ) (ps : List Position) : List Position :=
  ps.filter (fun p => !decide (price < p.target_price))

/-- The positions the sell pass keeps: target not reached. -/
def keptPositions (price : ℚ) (ps : List Position) : List Position :=
  ps.filter (fun p => decide (price < p.target_price))

/-- Total sale notional of a list of positions at a price. -/
def sumSellNotional (price : ℚ) (ps : List Position) : ℚ :=
  (ps.map (fun p => price * p.qty)).sum

/-- Total realized pnl of selling a list of positions at a price. -/
def sumSellPnl (price : ℚ) (ps : List Position) : ℚ :=
  (ps.map (fun p => (price - p.entry_price) * p.qty)).sum

/-- The state claim C10 describes: the deferred recenter is pending but no
    hedge is open, and no futures margin is available to open one. -/
def StuckSt (s : St) : Prop :=
  s.hedge_position = none ∧ s.futures_available_margin = 0 ∧ s.pending_recenter.isSome = true

/-- The default paper configuration used by the concrete runs below:
    backtest mode, 5 grid levels, ATR multiplier 1. -/
def cfgStd : Cfg := defaultCfg true 5 1

/-- Initial state for capital 1000 and reserve ratio 0.25: available 500,
    reserve 250, futures margin 250. -/
def initStd : St := mkInitSt 1000 (1/4)

/-- Indicator row literal. -/
def rowOf (a14 a28 f m sl : ℚ) : Row := ⟨a14, a28, f, m, sl⟩

/-- Bars 1-2 shared by the concrete runs: ladder init at price 100 with
    ATR 2 (levels 90..98), then a grid buy at level 98. -/
def preBars : List BarIn := [⟨0, 100, rowOf 2 2 1 2 3⟩, ⟨1000, 98, rowOf 2 2 1 2 3⟩]

/-- The 8-bar run refuting the non-negativity of available capital: grid
    buys shrink free cash, a hedge opened on a break below the ladder is
    closed by a reversal cut whose negative pnl exceeds remaining cash. -/
def c1Bars : List BarIn :=
  preBars ++
  [ ⟨2000, 96, rowOf 2 2 1 2 3⟩
  , ⟨3000, 94, rowOf 2 2 1 2 3⟩
  , ⟨4000, 88, rowOf 2 2 (441/5) (442/5) (443/5)⟩
  , ⟨5000, 179/2, rowOf 2 2 89 88 87⟩
  , ⟨6000, 78, rowOf 2 2 (391/5) (392/5) (393/5)⟩
  , ⟨606000, 799/10, rowOf 2 2 (797/10) (796/10) (795/10)⟩ ]

/-- True on the ok outcome of a pass. -/
def isOkB (e : Except St St) : Bool := match e with | .ok _ => true | .error _ => false

/-- Failure oracle that fails the second collaborator call of a pass. -/
def failSecond : ℕ → Bool := fun i => decide (i = 1)

/-- A state with the deferred recenter pending, no hedge open and no free
    futures margin, as left behind by a downtrend recenter whose hedge
    scale-in was rejected. -/
def stuckStEx : St :=
  { mkInitSt 1000 (1/4) with futures_available_margin := 0, pending_recenter := some 0 }

/-- A paper state holding one position bought at 98 with target 100, its
    level marked filled. -/
def c4State : St :=
  { mkInitSt 1000 (1/4) with
      available_capital := 100
      grid_prices := [94, 96, 98]
      grid_filled := fun p => decide (p = 98)
      grid_spacing := 2
      positions := [⟨98, 1, 98, 100⟩] }

/-- A paper state whose ladder is the single level 1 with the tiny spacing
    0.00003, about to fill at price 1. -/
def c5State : St :=
  { mkInitSt 1000 (1/4) with
      available_capital := 10
      grid_prices := [1]
      grid_spacing := 3/100000 }

/-- A paper state holding two positions whose targets are both reached at
    price 100. -/
def c6State : St :=
  { mkInitSt 1000 (1/4) with positions := [⟨90, 1, 90, 95⟩, ⟨91, 1, 91, 95⟩] }

/-- The live-mode configuration. -/
def cfgLive : Cfg := defaultCfg false 5 1

/-- A live state with an open hedge of qty 1 at entry 100 and 50 free
    futures margin. -/
def c8State : St :=
  { mkInitSt 1000 (1/4) with
      available_capital := 100
      futures_available_margin := 50
      hedge_position := some ⟨1, 100, 0⟩ }

/-- A 2-level paper configuration. -/
def cfgTwo : Cfg := defaultCfg true 2 1

/-- A state with an open break-even hedge and the deferred recenter pending. -/
def c2HedgeSt : St :=
  { mkInitSt 1000 (1/4) with hedge_position := some ⟨1, 100, 0⟩, pending_recenter := some 5 }

/-- Bar 3 of the C3 run: the downtrend recenter fires with a zero ATR row,
    so the hedge pass is skipped on the same bar and the fresh hedge and the
    pending flag both survive the bar. -/
def c3Bar3 : BarIn := ⟨2000, 84, rowOf 0 0 85 86 87⟩

/-- Bar 4 of the C3 run: an uptrend recenter closes the break-even hedge. -/
def c3Bar4 : BarIn := ⟨3000, 84, rowOf 2 2 83 82 1⟩

/-- Bar 3 of the C2 run: drift plus strict downtrend EMA layering. -/
def c2Bar3 : BarIn := ⟨2000, 84, rowOf 2 2 85 86 87⟩

/-!  Frame lemmas: which fields each operation can touch. -/

theorem buyStep_frame (cfg : Cfg) (os lv : ℚ) (s : St) :
    (buyStep cfg os lv s).futures_available_margin = s.futures_available_margin ∧
    (buyStep cfg os lv s).hedge_position = s.hedge_position ∧
    (buyStep cfg os lv s).pending_recenter = s.pending_recenter ∧
    (buyStep cfg os lv s).grid_prices = s.grid_prices ∧
    (buyStep cfg os lv s).grid_spacing = s.grid_spacing ∧
    (buyStep cfg os lv s).reserve_capital = s.reserve_capital ∧
    0 ≤ (buyStep cfg os lv s).available_capital := by
  refine ⟨rfl, rfl, rfl, rfl, rfl, rfl, ?_⟩
  simp [buyStep]

theorem processBuyLevels_frame (cfg : Cfg) (price os : ℚ) (fail : ℕ → Bool)
    (ls : List ℚ) : ∀ (idx : ℕ) (s : St),
    (runE (processBuyLevels cfg price os fail ls idx s)).futures_available_margin
        = s.futures_available_margin ∧
    (runE (processBuyLevels cfg price os fail ls idx s)).hedge_position = s.hedge_position ∧
    (runE (processBuyLevels cfg price os fail ls idx s)).pending_recenter = s.pending_recenter ∧
    (runE (processBuyLevels cfg price os fail ls idx s)).grid_prices = s.grid_prices ∧
    (runE (processBuyLevels cfg price os fail ls idx s)).grid_spacing = s.grid_spacing ∧
    (runE (processBuyLevels cfg price os fail ls idx s)).reserve_capital = s.reserve_capital ∧
    (0 ≤ s.available_capital →
      0 ≤ (runE (processBuyLevels cfg price os fail ls idx s)).available_capital) := by
  induction ls with
  | nil => intro idx s; simp [processBuyLevels, runE]
  | cons l ls ih =>
    intro idx s
    simp only [processBuyLevels]
    split
    · split
      · exact ih idx s
      · split
        · simp [runE]
        · have hb := buyStep_frame cfg os l s
          have := ih (idx + 1) (buyStep cfg os l s)
          refine ⟨?_, ?_, ?_, ?_, ?_, ?_, fun _ => ?_⟩ <;>
            simp_all
    · exact ih idx s

theorem process_buy_grid_frame (cfg : Cfg) (price : ℚ) (fail : ℕ → Bool) (s : St) :
    (runE (process_buy_grid cfg price fail s)).futures_available_margin
        = s.futures_available_margin ∧
    (runE (process_buy_grid cfg price fail s)).hedge_position = s.hedge_position ∧
    (runE (process_buy_grid cfg price fail s)).pending_recenter = s.pending_recenter ∧
    (runE (process_buy_grid cfg price fail s)).grid_prices = s.grid_prices ∧
    (runE (process_buy_grid cfg price fail s)).grid_spacing = s.grid_spacing ∧
    (runE (process_buy_grid cfg price fail s)).reserve_capital = s.reserve_capital ∧
    (0 ≤ s.available_capital →
      0 ≤ (runE (process_buy_grid cfg price fail s)).available_capital) := by
  simp only [process_buy_grid]
  split
  · simp [runE]
  · exact processBuyLevels_frame cfg price _ fail s.grid_prices 0 s

theorem sellStep_frame (cfg : Cfg) (price : ℚ) (p : Position) (s : St) :
    (sellStep cfg price p s).futures_available_margin = s.futures_available_margin ∧
    (sellStep cfg price p s).hedge_position = s.hedge_position ∧
    (sellStep cfg price p s).pending_recenter = s.pending_recenter ∧
    (sellStep cfg price p s).grid_prices = s.grid_prices ∧
    (sellStep cfg price p s).grid_spacing = s.grid_spacing ∧
    (sellStep cfg price p s).reserve_capital = s.reserve_capital ∧
    (sellStep cfg price p s).positions = s.positions ∧
    ((0 ≤ price ∧ 0 ≤ p.qty ∧ 0 ≤ s.available_capital) →
      0 ≤ (sellStep cfg price p s).available_capital) := by
  refine ⟨?_, ?_, ?_, ?_, ?_, ?_, ?_, ?_⟩
  case _ => cases hc : cfg.paper <;> simp [sellStep, hc]
  case _ => cases hc : cfg.paper <;> simp [sellStep, hc]
  case _ => cases hc : cfg.paper <;> simp [sellStep, hc]
  case _ => cases hc : cfg.paper <;> simp [sellStep, hc]
  case _ => cases hc : cfg.paper <;> simp [sellStep, hc]
  case _ => cases hc : cfg.paper <;> simp [sellStep, hc]
  case _ => cases hc : cfg.paper <;> simp [sellStep, hc]
  case _ =>
    rintro ⟨h1, h2, h3⟩
    have hn : 0 ≤ price * p.qty := mul_nonneg h1 h2
    cases hc : cfg.paper <;> simp [sellStep, hc] <;> linarith

theorem processSellPositions_frame (cfg : Cfg) (price : ℚ) (fail : ℕ → Bool)
    (ps : List Position) : ∀ (idx : ℕ) (s : St),
    (sellSt (processSellPositions cfg price fail ps idx s)).futures_available_margin
        = s.futures_available_margin ∧
    (sellSt (processSellPositions cfg price fail ps idx s)).hedge_position = s.hedge_position ∧
    (sellSt (processSellPositions cfg price fail ps idx s)).pending_recenter
        = s.pending_recenter ∧
    (sellSt (processSellPositions cfg price fail ps idx s)).grid_prices = s.grid_prices ∧
    (sellSt (processSellPositions cfg price fail ps idx s)).grid_spacing = s.grid_spacing ∧
    (sellSt (processSellPositions cfg price fail ps idx s)).reserve_capital
        = s.reserve_capital ∧
    (sellSt (processSellPositions cfg price fail ps idx s)).positions = s.positions ∧
    ((0 ≤ price ∧ (∀ p ∈ ps, 0 ≤ p.qty) ∧ 0 ≤ s.available_capital) →
      0 ≤ (sellSt (processSellPositions cfg price fail ps idx s)).available_capital) := by
  induction ps with
  | nil => intro idx s; simp [processSellPositions, sellSt]
  | cons p ps ih =>
    intro idx s
    simp only [processSellPositions]
    split
    · have := ih idx s
      cases h : processSellPositions cfg price fail ps idx s <;>
        simp_all [sellSt, Except.map]
    · split
      · exact ⟨rfl, rfl, rfl, rfl, rfl, rfl, rfl, fun h => h.2.2⟩
      · obtain ⟨m0, h0, pd0, g0, sp0, r0, po0, a0⟩ := sellStep_frame cfg price p s
        obtain ⟨m1, h1, pd1, g1, sp1, r1, po1, a1⟩ := ih (idx + 1) (sellStep cfg price p s)
        refine ⟨m1.trans m0, h1.trans h0, pd1.trans pd0, g1.trans g0, sp1.trans sp0,
          r1.trans r0, po1.trans po0, ?_⟩
        rintro ⟨x1, x2, x3⟩
        refine a1 ⟨x1, fun q hq => x2 q (List.mem_cons_of_mem _ hq), ?_⟩
        exact a0 ⟨x1, x2 p (List.mem_cons_self _ _), x3⟩

theorem process_sell_grid_frame (cfg : Cfg) (price : ℚ) (fail : ℕ → Bool) (s : St) :
    (runE (process_sell_grid cfg price fail s)).futures_available_margin
        = s.futures_available_margin ∧
    (runE (process_sell_grid cfg price fail s)).hedge_position = s.hedge_position ∧
    (runE (process_sell_grid cfg price fail s)).pending_recenter = s.pending_recenter ∧
    (runE (process_sell_grid cfg price fail s)).grid_prices = s.grid_prices ∧
    (runE (process_sell_grid cfg price fail s)).grid_spacing = s.grid_spacing ∧
    (runE (process_sell_grid cfg price fail s)).reserve_capital = s.reserve_capital ∧
    ((0 ≤ price ∧ (∀ p ∈ s.positions, 0 ≤ p.qty) ∧ 0 ≤ s.available_capital) →
      0 ≤ (runE (process_sell_grid cfg price fail s)).available_capital) := by
  have := processSellPositions_frame cfg price fail s.positions 0 s
  unfold process_sell_grid
  cases h : processSellPositions cfg price fail s.positions 0 s <;>
    simp_all [sellSt, runE, Except.map]

theorem ensure_hedge_ratio_frame (cfg : Cfg) (ts : ℤ) (tr price net : ℚ)
    (ret : Option ℚ) (s : St) :
    (ensure_hedge_ratio cfg ts tr price net ret s).available_capital = s.available_capital ∧
    (ensure_hedge_ratio cfg ts tr price net ret s).realized_grid_profit
        = s.realized_grid_profit ∧
    (ensure_hedge_ratio cfg ts tr price net ret s).pending_recenter = s.pending_recenter ∧
    (ensure_hedge_ratio cfg ts tr price net ret s).grid_prices = s.grid_prices ∧
    (ensure_hedge_ratio cfg ts tr price net ret s).grid_spacing = s.grid_spacing ∧
    (ensure_hedge_ratio cfg ts tr price net ret s).positions = s.positions ∧
    (ensure_hedge_ratio cfg ts tr price net ret s).reserve_capital = s.reserve_capital ∧
    (0 ≤ s.futures_available_margin →
      0 ≤ (ensure_hedge_ratio cfg ts tr price net ret s).futures_available_margin) := by
  simp only [ensure_hedge_ratio]
  split_ifs <;> cases ret <;> simp [le_max_left, le_sup_left]

theorem ensure_hedge_ratio_zero_margin (cfg : Cfg) (ts : ℤ) (tr price net : ℚ)
    (ret : Option ℚ) (s : St) (h : s.futures_available_margin = 0) :
    ensure_hedge_ratio cfg ts tr price net ret s = s := by
  simp only [ensure_hedge_ratio]
  split_ifs <;> simp_all

theorem close_hedge_pending (cfg : Cfg) (price : ℚ) (s : St) :
    (close_hedge cfg price s).pending_recenter = s.pending_recenter := by
  cases hh : s.hedge_position <;> cases hc : cfg.paper <;> simp [close_hedge, hh, hc]

theorem close_hedge_grid (cfg : Cfg) (price : ℚ) (s : St) :
    (close_hedge cfg price s).grid_prices = s.grid_prices ∧
    (close_hedge cfg price s).grid_spacing = s.grid_spacing ∧
    (close_hedge cfg price s).positions = s.positions ∧
    (close_hedge cfg price s).reserve_capital = s.reserve_capital ∧
    (close_hedge cfg price s).realized_grid_profit = s.realized_grid_profit := by
  cases hh : s.hedge_position <;> cases hc : cfg.paper <;> simp [close_hedge, hh, hc]

theorem close_hedge_closes (cfg : Cfg) (price : ℚ) (s : St) :
    (close_hedge cfg price s).hedge_position = none ∨ close_hedge cfg price s = s := by
  cases hh : s.hedge_position with
  | none => right; simp [close_hedge, hh]
  | some h => left; cases hc : cfg.paper <;> simp [close_hedge, hh, hc]

theorem close_hedge_margin_nonneg (cfg : Cfg) (price : ℚ) (s : St)
    (h : 0 ≤ s.futures_available_margin) :
    0 ≤ (close_hedge cfg price s).futures_available_margin := by
  cases hh : s.hedge_position with
  | none => simpa [close_hedge, hh] using h
  | some hg => cases hc : cfg.paper <;> simp [close_hedge, hh, hc] <;> exact h

theorem close_hedge_none (cfg : Cfg) (price : ℚ) (s : St) (h : s.hedge_position = none) :
    close_hedge cfg price s = s := by
  simp [close_hedge, h]

theorem rebalance_frame (hedge_pnl price : ℚ) (s : St) :
    (rebalance_spot_after_hedge hedge_pnl price s).available_capital = s.available_capital ∧
    (rebalance_spot_after_hedge hedge_pnl price s).realized_grid_profit
        = s.realized_grid_profit ∧
    (rebalance_spot_after_hedge hedge_pnl price s).futures_available_margin
        = s.futures_available_margin ∧
    (rebalance_spot_after_hedge hedge_pnl price s).hedge_position = s.hedge_position ∧
    (rebalance_spot_after_hedge hedge_pnl price s).pending_recenter = s.pending_recenter ∧
    (rebalance_spot_after_hedge hedge_pnl price s).grid_prices = s.grid_prices ∧
    (rebalance_spot_after_hedge hedge_pnl price s).grid_spacing = s.grid_spacing ∧
    (rebalance_spot_after_hedge hedge_pnl price s).reserve_capital = s.reserve_capital := by
  simp only [rebalance_spot_after_hedge]
  split <;> simp

theorem forceCloseFold_frame (cfg : Cfg) (price : ℚ) (l : List Position) : ∀ s : St,
    (l.foldl (forceCloseStep cfg price) s).futures_available_margin
        = s.futures_available_margin ∧
    (l.foldl (forceCloseStep cfg price) s).hedge_position = s.hedge_position ∧
    (l.foldl (forceCloseStep cfg price) s).pending_recenter = s.pending_recenter ∧
    (l.foldl (forceCloseStep cfg price) s).grid_prices = s.grid_prices ∧
    (l.foldl (forceCloseStep cfg price) s).grid_spacing = s.grid_spacing ∧
    (l.foldl (forceCloseStep cfg price) s).reserve_capital = s.reserve_capital ∧
    (l.foldl (forceCloseStep cfg price) s).positions = s.positions := by
  induction l with
  | nil => intro s; simp
  | cons p l ih =>
    intro s
    have hs := ih (forceCloseStep cfg price s p)
    have hstep : (forceCloseStep cfg price s p).futures_available_margin
          = s.futures_available_margin ∧
        (forceCloseStep cfg price s p).hedge_position = s.hedge_position ∧
        (forceCloseStep cfg price s p).pending_recenter = s.pending_recenter ∧
        (forceCloseStep cfg price s p).grid_prices = s.grid_prices ∧
        (forceCloseStep cfg price s p).grid_spacing = s.grid_spacing ∧
        (forceCloseStep cfg price s p).reserve_capital = s.reserve_capital ∧
        (forceCloseStep cfg price s p).positions = s.positions := by
      cases hc : cfg.paper <;> simp [forceCloseStep, hc]
    simp only [List.foldl_cons]
    exact ⟨hs.1.trans hstep.1, hs.2.1.trans hstep.2.1, hs.2.2.1.trans hstep.2.2.1,
      hs.2.2.2.1.trans hstep.2.2.2.1, hs.2.2.2.2.1.trans hstep.2.2.2.2.1,
      hs.2.2.2.2.2.1.trans hstep.2.2.2.2.2.1, hs.2.2.2.2.2.2.trans hstep.2.2.2.2.2.2⟩

theorem forceCloseSpot_frame (cfg : Cfg) (price : ℚ) (s : St) :
    (forceCloseSpot cfg price s).futures_available_margin = s.futures_available_margin ∧
    (forceCloseSpot cfg price s).hedge_position = s.hedge_position ∧
    (forceCloseSpot cfg price s).pending_recenter = s.pending_recenter ∧
    (forceCloseSpot cfg price s).grid_prices = s.grid_prices ∧
    (forceCloseSpot cfg price s).grid_spacing = s.grid_spacing ∧
    (forceCloseSpot cfg price s).reserve_capital = s.reserve_capital ∧
    (forceCloseSpot cfg price s).positions = [] := by
  have := forceCloseFold_frame cfg price s.positions s
  exact ⟨this.1, this.2.1, this.2.2.1, this.2.2.2.1, this.2.2.2.2.1,
    this.2.2.2.2.2.1, rfl⟩

theorem init_lower_grid_frame (cfg : Cfg) (base atr : ℚ) (so : Option ℚ) (s : St) :
    (init_lower_grid cfg base atr so s).futures_available_margin
        = s.futures_available_margin ∧
    (init_lower_grid cfg base atr so s).hedge_position = s.hedge_position ∧
    (init_lower_grid cfg base atr so s).pending_recenter = s.pending_recenter ∧
    (init_lower_grid cfg base atr so s).available_capital = s.available_capital ∧
    (init_lower_grid cfg base atr so s).realized_grid_profit = s.realized_grid_profit ∧
    (init_lower_grid cfg base atr so s).reserve_capital = s.reserve_capital ∧
    (init_lower_grid cfg base atr so s).positions = s.positions :=
  ⟨rfl, rfl, rfl, rfl, rfl, rfl, rfl⟩

theorem do_full_recenter_pending (cfg : Cfg) (price atr_14 atr_28 : ℚ) (s : St) :
    (do_full_recenter cfg price atr_14 atr_28 s).pending_recenter = s.pending_recenter := by
  cases hh : s.hedge_position with
  | none =>
    simp only [do_full_recenter, hh]
    show (forceCloseSpot cfg price s).pending_recenter = s.pending_recenter
    exact (forceCloseSpot_frame cfg price s).2.2.1
  | some h =>
    by_cases hp : (h.entry - price) * h.qty < 0
    · simp [do_full_recenter, hh, hp]
    · simp only [do_full_recenter, hh, if_neg hp]
      show (forceCloseSpot cfg price (rebalance_spot_after_hedge ((h.entry - price) * h.qty)
          price (close_hedge cfg price s))).pending_recenter = s.pending_recenter
      rw [(forceCloseSpot_frame cfg price _).2.2.1,
        (rebalance_frame ((h.entry - price) * h.qty) price _).2.2.2.2.1,
        close_hedge_pending]

theorem do_full_recenter_margin_nonneg (cfg : Cfg) (price atr_14 atr_28 : ℚ) (s : St)
    (h : 0 ≤ s.futures_available_margin) :
    0 ≤ (do_full_recenter cfg price atr_14 atr_28 s).futures_available_margin := by
  cases hh : s.hedge_position with
  | none =>
    simp only [do_full_recenter, hh]
    show 0 ≤ (forceCloseSpot cfg price s).futures_available_margin
    rw [(forceCloseSpot_frame cfg price s).1]
    exact h
  | some hg =>
    by_cases hp : (hg.entry - price) * hg.qty < 0
    · simpa [do_full_recenter, hh, hp] using h
    · simp only [do_full_recenter, hh, if_neg hp]
      show 0 ≤ (forceCloseSpot cfg price (rebalance_spot_after_hedge
          ((hg.entry - price) * hg.qty) price
          (close_hedge cfg price s))).futures_available_margin
      rw [(forceCloseSpot_frame cfg price _).1,
        (rebalance_frame ((hg.entry - price) * hg.qty) price _).2.2.1]
      exact close_hedge_margin_nonneg cfg price s h

theorem downtrendSellLoop_frame (cfg : Cfg) (price : ℚ) (ps : List Position) :
    ∀ (q : ℚ) (s : St),
    (downtrendSellLoop cfg price ps q s).1.futures_available_margin
        = s.futures_available_margin ∧
    (downtrendSellLoop cfg price ps q s).1.hedge_position = s.hedge_position ∧
    (downtrendSellLoop cfg price ps q s).1.pending_recenter = s.pending_recenter ∧
    (downtrendSellLoop cfg price ps q s).1.grid_prices = s.grid_prices ∧
    (downtrendSellLoop cfg price ps q s).1.grid_spacing = s.grid_spacing ∧
    (downtrendSellLoop cfg price ps q s).1.reserve_capital = s.reserve_capital ∧
    (downtrendSellLoop cfg price ps q s).1.positions = s.positions := by
  induction ps with
  | nil => intro q s; simp [downtrendSellLoop]
  | cons p ps ih =>
    intro q s
    simp only [downtrendSellLoop]
    split
    · exact ih q s
    · have key := ih (q - min p.qty q)
        (if cfg.paper then
          { s with available_capital := s.available_capital + price * min p.qty q
                   realized_grid_profit :=
                     s.realized_grid_profit + (price - p.entry_price) * min p.qty q }
          else s)
      have hstep : ((if cfg.paper then
          { s with available_capital := s.available_capital + price * min p.qty q
                   realized_grid_profit :=
                     s.realized_grid_profit + (price - p.entry_price) * min p.qty q }
          else s) : St).futures_available_margin = s.futures_available_margin ∧
          ((if cfg.paper then
          { s with available_capital := s.available_capital + price * min p.qty q
                   realized_grid_profit :=
                     s.realized_grid_profit + (price - p.entry_price) * min p.qty q }
          else s) : St).hedge_position = s.hedge_position ∧
          ((if cfg.paper then
          { s with available_capital := s.available_capital + price * min p.qty q
                   realized_grid_profit :=
                     s.realized_grid_profit + (price - p.entry_price) * min p.qty q }
          else s) : St).pending_recenter = s.pending_recenter ∧
          ((if cfg.paper then
          { s with available_capital := s.available_capital + price * min p.qty q
                   realized_grid_profit :=
                     s.realized_grid_profit + (price - p.entry_price) * min p.qty q }
          else s) : St).grid_prices = s.grid_prices ∧
          ((if cfg.paper then
          { s with available_capital := s.available_capital + price * min p.qty q
                   realized_grid_profit :=
                     s.realized_grid_profit + (price - p.entry_price) * min p.qty q }
          else s) : St).grid_spacing = s.grid_spacing ∧
          ((if cfg.paper then
          { s with available_capital := s.available_capital + price * min p.qty q
                   realized_grid_profit :=
                     s.realized_grid_profit + (price - p.entry_price) * min p.qty q }
          else s) : St).reserve_capital = s.reserve_capital ∧
          ((if cfg.paper then
          { s with available_capital := s.available_capital + price * min p.qty q
                   realized_grid_profit :=
                     s.realized_grid_profit + (price - p.entry_price) * min p.qty q }
          else s) : St).positions = s.positions := by
        cases hc : cfg.paper <;> simp [hc]
      split <;>
        exact ⟨key.1.trans hstep.1, key.2.1.trans hstep.2.1, key.2.2.1.trans hstep.2.2.1,
          key.2.2.2.1.trans hstep.2.2.2.1, key.2.2.2.2.1.trans hstep.2.2.2.2.1,
          key.2.2.2.2.2.1.trans hstep.2.2.2.2.2.1, key.2.2.2.2.2.2.trans hstep.2.2.2.2.2.2⟩

theorem recenter_downtrend_frame (cfg : Cfg) (ts : ℤ) (price : ℚ) (s : St) :
    (recenter_downtrend cfg ts price s).pending_recenter = s.pending_recenter ∧
    (recenter_downtrend cfg ts price s).grid_prices = s.grid_prices ∧
    (recenter_downtrend cfg ts price s).grid_spacing = s.grid_spacing ∧
    (recenter_downtrend cfg ts price s).reserve_capital = s.reserve_capital ∧
    (0 ≤ s.futures_available_margin →
      0 ≤ (recenter_downtrend cfg ts price s).futures_available_margin) ∧
    (s.futures_available_margin = 0 →
      (recenter_downtrend cfg ts price s).futures_available_margin = 0 ∧
      (recenter_downtrend cfg ts price s).hedge_position = s.hedge_position) := by
  simp only [recenter_downtrend]
  split
  · simp
  · obtain ⟨m1, h1, pd1, g1, sp1, r1, po1⟩ := downtrendSellLoop_frame cfg price
      (List.insertionSort posDesc s.positions) (sumQty s.positions * (1/2)) s
    split
    · exact ⟨pd1, g1, sp1, r1, fun h => by rw [m1]; exact h, fun h => ⟨m1.trans h, h1⟩⟩
    · obtain ⟨ea, er, ep, eg, es, epos, eres, em⟩ := ensure_hedge_ratio_frame cfg ts 1 price
        (sumQty ((downtrendSellLoop cfg price (List.insertionSort posDesc s.positions)
          (sumQty s.positions * (1/2)) s).2)) (some price)
        ({ (downtrendSellLoop cfg price (List.insertionSort posDesc s.positions)
          (sumQty s.positions * (1/2)) s).1 with
            positions := (downtrendSellLoop cfg price (List.insertionSort posDesc s.positions)
              (sumQty s.positions * (1/2)) s).2 } : St)
      refine ⟨ep.trans pd1, eg.trans g1, es.trans sp1, eres.trans r1, ?_, ?_⟩
      · intro h
        exact em (by
          show (0 : ℚ) ≤ (downtrendSellLoop cfg price (List.insertionSort posDesc s.positions)
            (sumQty s.positions * (1/2)) s).1.futures_available_margin
          rw [m1]; exact h)
      · intro h
        have heq := ensure_hedge_ratio_zero_margin cfg ts 1 price
          (sumQty ((downtrendSellLoop cfg price (List.insertionSort posDesc s.positions)
            (sumQty s.positions * (1/2)) s).2)) (some price)
          ({ (downtrendSellLoop cfg price (List.insertionSort posDesc s.positions)
            (sumQty s.positions * (1/2)) s).1 with
              positions := (downtrendSellLoop cfg price (List.insertionSort posDesc s.positions)
                (sumQty s.positions * (1/2)) s).2 } : St) (m1.trans h)
        rw [heq]
        exact ⟨m1.trans h, h1⟩

theorem sellProfitableLoop_frame (cfg : Cfg) (price : ℚ) (ps : List Position) :
    ∀ s : St,
    (sellProfitableLoop cfg price ps s).1.futures_available_margin
        = s.futures_available_margin ∧
    (sellProfitableLoop cfg price ps s).1.hedge_position = s.hedge_position ∧
    (sellProfitableLoop cfg price ps s).1.pending_recenter = s.pending_recenter ∧
    (sellProfitableLoop cfg price ps s).1.grid_prices = s.grid_prices ∧
    (sellProfitableLoop cfg price ps s).1.grid_spacing = s.grid_spacing ∧
    (sellProfitableLoop cfg price ps s).1.reserve_capital = s.reserve_capital ∧
    (sellProfitableLoop cfg price ps s).1.positions = s.positions := by
  induction ps with
  | nil => intro s; simp [sellProfitableLoop]
  | cons p ps ih =>
    intro s
    simp only [sellProfitableLoop]
    split
    · obtain ⟨m1, h1, pd1, g1, sp1, r1, po1⟩ := ih
        (if cfg.paper then
          { s with available_capital := s.available_capital + price * p.qty
                   realized_grid_profit :=
                     s.realized_grid_profit + (price - p.entry_price) * p.qty }
          else s)
      cases hc : cfg.paper <;> simp_all
    · exact ih s

theorem recenterUptrendTail_frame (cfg : Cfg) (price atr_14 atr_28 : ℚ) (s0 : St) :
    (recenterUptrendTail cfg price atr_14 atr_28 s0).pending_recenter
        = s0.pending_recenter ∧
    (recenterUptrendTail cfg price atr_14 atr_28 s0).futures_available_margin
        = s0.futures_available_margin ∧
    (recenterUptrendTail cfg price atr_14 atr_28 s0).hedge_position = s0.hedge_position ∧
    (recenterUptrendTail cfg price atr_14 atr_28 s0).reserve_capital
        = s0.reserve_capital := by
  obtain ⟨m1, h1, pd1, g1, sp1, r1, po1⟩ := sellProfitableLoop_frame cfg price s0.positions s0
  exact ⟨pd1, m1, h1, r1⟩

theorem recenter_uptrend_facts (cfg : Cfg) (price atr_14 atr_28 : ℚ) (s : St) :
    (recenter_uptrend cfg price atr_14 atr_28 s).pending_recenter = s.pending_recenter ∧
    (0 ≤ s.futures_available_margin →
      0 ≤ (recenter_uptrend cfg price atr_14 atr_28 s).futures_available_margin) ∧
    (s.hedge_position = none →
      (recenter_uptrend cfg price atr_14 atr_28 s).hedge_position = none ∧
      (recenter_uptrend cfg price atr_14 atr_28 s).futures_available_margin
        = s.futures_available_margin) := by
  simp only [recenter_uptrend]
  cases hh : s.hedge_position with
  | none =>
    have k := recenterUptrendTail_frame cfg price atr_14 atr_28 s
    exact ⟨k.1, fun h => by rw [k.2.1]; exact h, fun _ => ⟨k.2.2.1.trans hh, k.2.1⟩⟩
  | some h =>
    dsimp only
    by_cases hp : 0 ≤ (h.entry - price) * h.qty
    · rw [if_pos hp]
      have k := recenterUptrendTail_frame cfg price atr_14 atr_28 (close_hedge cfg price s)
      refine ⟨k.1.trans (close_hedge_pending cfg price s), fun hm => ?_, fun hn => ?_⟩
      · rw [k.2.1]; exact close_hedge_margin_nonneg cfg price s hm
      · exact absurd hn (by simp)
    · rw [if_neg hp]
      have k := recenterUptrendTail_frame cfg price atr_14 atr_28 s
      exact ⟨k.1, fun hm => by rw [k.2.1]; exact hm,
        fun hn => absurd hn (by simp)⟩

theorem do_full_recenter_stuck (cfg : Cfg) (price atr_14 atr_28 : ℚ) (s : St)
    (h : s.hedge_position = none) :
    (do_full_recenter cfg price atr_14 atr_28 s).futures_available_margin
        = s.futures_available_margin ∧
    (do_full_recenter cfg price atr_14 atr_28 s).hedge_position = none ∧
    (do_full_recenter cfg price atr_14 atr_28 s).pending_recenter = s.pending_recenter := by
  refine ⟨?_, ?_, do_full_recenter_pending cfg price atr_14 atr_28 s⟩
  · simp only [do_full_recenter, h]
    show (forceCloseSpot cfg price s).futures_available_margin = s.futures_available_margin
    exact (forceCloseSpot_frame cfg price s).1
  · simp only [do_full_recenter, h]
    rfl

theorem manage_hedge_exit_hedge_none (cfg : Cfg) (ts : ℤ)
    (price spot_unrealized ema_fast ema_mid atr_14 atr_28 : ℚ) (s : St)
    (h : s.hedge_position = none) :
    manage_hedge_exit cfg ts price spot_unrealized ema_fast ema_mid atr_14 atr_28 s = s := by
  simp [manage_hedge_exit, h]

theorem manage_hedge_exit_margin_nonneg (cfg : Cfg) (ts : ℤ)
    (price spot_unrealized ema_fast ema_mid atr_14 atr_28 : ℚ) (s : St)
    (h : 0 ≤ s.futures_available_margin) :
    0 ≤ (manage_hedge_exit cfg ts price spot_unrealized ema_fast ema_mid
      atr_14 atr_28 s).futures_available_margin := by
  cases hh : s.hedge_position with
  | none =>
    rw [manage_hedge_exit_hedge_none cfg ts price spot_unrealized ema_fast ema_mid
      atr_14 atr_28 s hh]
    exact h
  | some hg =>
    simp only [manage_hedge_exit, hh]
    split
    · exact do_full_recenter_margin_nonneg cfg price atr_14 atr_28 s h
    · split
      · exact close_hedge_margin_nonneg cfg price s h
      · split
        · rw [(rebalance_frame _ price _).2.2.1]
          exact close_hedge_margin_nonneg cfg price s h
        · split
          · exact close_hedge_margin_nonneg cfg price s h
          · split
            · exact close_hedge_margin_nonneg cfg price s h
            · exact h

theorem maybe_recenter_grid_margin_nonneg (cfg : Cfg) (ts : ℤ) (price atr_14 atr_28 : ℚ)
    (row : Row) (s : St) (h : 0 ≤ s.futures_available_margin) :
    0 ≤ (maybe_recenter_grid cfg ts price atr_14 atr_28 row s).futures_available_margin := by
  simp only [maybe_recenter_grid]
  split
  · exact h
  · split
    · exact h
    · split
      · exact h
      · split
        · exact (recenter_downtrend_frame cfg ts price s).2.2.2.2.1 h
        · exact (recenter_uptrend_facts cfg price atr_14 atr_28 s).2.1 h
        · split
          · split
            · exact h
            · exact do_full_recenter_margin_nonneg cfg price atr_14 atr_28 s h
          · exact do_full_recenter_margin_nonneg cfg price atr_14 atr_28 s h

theorem maybe_recenter_grid_stuck (cfg : Cfg) (ts : ℤ) (price atr_14 atr_28 : ℚ)
    (row : Row) (s : St) (h : StuckSt s) :
    StuckSt (maybe_recenter_grid cfg ts price atr_14 atr_28 row s) := by
  obtain ⟨hh, hm, hp⟩ := h
  simp only [maybe_recenter_grid]
  split
  · exact ⟨hh, hm, hp⟩
  · split
    · exact ⟨hh, hm, hp⟩
    · split
      · exact ⟨hh, hm, hp⟩
      · split
        · have k := recenter_downtrend_frame cfg ts price s
          have k0 := k.2.2.2.2.2 hm
          exact ⟨k0.2.trans hh, k0.1, by simp⟩
        · have k := (recenter_uptrend_facts cfg price atr_14 atr_28 s).2.2 hh
          exact ⟨k.1, k.2.trans hm, by
            rw [(recenter_uptrend_facts cfg price atr_14 atr_28 s).1]; exact hp⟩
        · split
          · split
            · exact ⟨hh, hm, hp⟩
            · have k := do_full_recenter_stuck cfg price atr_14 atr_28 s hh
              exact ⟨k.2.1, k.1.trans hm, by rw [k.2.2]; exact hp⟩
          · have k := do_full_recenter_stuck cfg price atr_14 atr_28 s hh
            exact ⟨k.2.1, k.1.trans hm, by rw [k.2.2]; exact hp⟩

theorem ensure_ite_margin_nonneg (cfg : Cfg) (ts : ℤ) (tr price net : ℚ) (ret : Option ℚ)
    (c : Prop) [Decidable c] (s' : St) (h : 0 ≤ s'.futures_available_margin) :
    0 ≤ ((if c then ensure_hedge_ratio cfg ts tr price net ret s' else s') :
      St).futures_available_margin := by
  split
  · exact (ensure_hedge_ratio_frame cfg ts tr price net ret s').2.2.2.2.2.2.2 h
  · exact h

theorem process_hedge_margin_nonneg (cfg : Cfg) (ts : ℤ) (price : ℚ) (row : Row) (s : St)
    (h : 0 ≤ s.futures_available_margin) :
    0 ≤ (process_hedge cfg ts price row s).futures_available_margin := by
  simp only [process_hedge]
  split
  · exact h
  · split
    · exact h
    · split
      · exact h
      · apply manage_hedge_exit_margin_nonneg
        apply ensure_ite_margin_nonneg
        apply ensure_ite_margin_nonneg
        exact h

theorem process_hedge_stuck (cfg : Cfg) (ts : ℤ) (price : ℚ) (row : Row) (s : St)
    (h : StuckSt s) : process_hedge cfg ts price row s = s := by
  obtain ⟨hh, hm, hp⟩ := h
  simp only [process_hedge]
  split
  · rfl
  · split
    · rfl
    · split
      · rfl
      · simp only [ensure_hedge_ratio_zero_margin _ _ _ _ _ _ _ hm, ite_self,
          manage_hedge_exit_hedge_none _ _ _ _ _ _ _ _ _ hh]

theorem stuck_tail (cfg : Cfg) (b : BarIn) (s1 : St) (h : StuckSt s1) :
    StuckSt (process_hedge cfg b.ts b.price b.row
      (runE (process_sell_grid cfg b.price noFail
        (runE (process_buy_grid cfg b.price noFail s1))))) := by
  have hbuy := process_buy_grid_frame cfg b.price noFail s1
  have h2 : StuckSt (runE (process_buy_grid cfg b.price noFail s1)) :=
    ⟨hbuy.2.1.trans h.1, hbuy.1.trans h.2.1, by rw [hbuy.2.2.1]; exact h.2.2⟩
  have hsell := process_sell_grid_frame cfg b.price noFail
    (runE (process_buy_grid cfg b.price noFail s1))
  have h3 : StuckSt (runE (process_sell_grid cfg b.price noFail
      (runE (process_buy_grid cfg b.price noFail s1)))) :=
    ⟨hsell.2.1.trans h2.1, hsell.1.trans h2.2.1, by rw [hsell.2.2.1]; exact h2.2.2⟩
  rw [process_hedge_stuck _ _ _ _ _ h3]
  exact h3

theorem processBar_stuck (cfg : Cfg) (b : BarIn) (s : St) (h : StuckSt s) :
    StuckSt (processBar cfg b s) := by
  obtain ⟨hh, hm, hp⟩ := h
  simp only [processBar]
  apply stuck_tail
  split
  · have k := init_lower_grid_frame cfg b.price b.row.atr_14 none s
    exact ⟨k.2.1.trans hh, k.1.trans hm, by rw [k.2.2.1]; exact hp⟩
  · apply maybe_recenter_grid_stuck
    split
    · exact ⟨hh, hm, hp⟩
    · exact ⟨hh, hm, hp⟩

theorem processBar_margin_nonneg (cfg : Cfg) (b : BarIn) (s : St)
    (h : 0 ≤ s.futures_available_margin) :
    0 ≤ (processBar cfg b s).futures_available_margin := by
  simp only [processBar]
  apply process_hedge_margin_nonneg
  rw [(process_sell_grid_frame _ _ _ _).1, (process_buy_grid_frame _ _ _ _).1]
  split
  · rw [(init_lower_grid_frame _ _ _ _ _).1]; exact h
  · apply maybe_recenter_grid_margin_nonneg
    split
    · exact h
    · exact h

theorem processBars_margin_nonneg (cfg : Cfg) (bars : List BarIn) : ∀ s : St,
    0 ≤ s.futures_available_margin →
    0 ≤ (processBars cfg bars s).futures_available_margin := by
  induction bars with
  | nil => intro s h; exact h
  | cons b bars ih =>
    intro s h
    exact ih (processBar cfg b s) (processBar_margin_nonneg cfg b s h)

theorem processBars_stuck (cfg : Cfg) (bars : List BarIn) : ∀ s : St,
    StuckSt s → StuckSt (processBars cfg bars s) := by
  induction bars with
  | nil => intro s h; exact h
  | cons b bars ih =>
    intro s h
    exact ih (processBar cfg b s) (processBar_stuck cfg b s h)

theorem processSellPositions_paper (cfg : Cfg) (price : ℚ) (hp : cfg.paper = true)
    (ps : List Position) : ∀ (idx : ℕ) (s : St),
    processSellPositions cfg price noFail ps idx s
      = .ok (sellSt (processSellPositions cfg price noFail ps idx s),
             sellRem (processSellPositions cfg price noFail ps idx s)) ∧
    sellRem (processSellPositions cfg price noFail ps idx s) = keptPositions price ps ∧
    (sellSt (processSellPositions cfg price noFail ps idx s)).realized_grid_profit
      = s.realized_grid_profit + sumSellPnl price (soldPositions price ps) ∧
    (sellSt (processSellPositions cfg price noFail ps idx s)).available_capital
      = s.available_capital + sumSellNotional price (soldPositions price ps) ∧
    ∀ k : ℚ, (k ∈ (soldPositions price ps).map Position.grid_price ∨ s.grid_filled k = false) →
      (sellSt (processSellPositions cfg price noFail ps idx s)).grid_filled k = false := by
  induction ps with
  | nil =>
    intro idx s
    simp [processSellPositions, sellSt, sellRem, keptPositions, soldPositions,
      sumSellPnl, sumSellNotional]
  | cons p ps ih =>
    intro idx s
    by_cases ht : price < p.target_price
    · obtain ⟨hok, hrem, hre, hav, hfi⟩ := ih idx s
      have hstep : processSellPositions cfg price noFail (p :: ps) idx s
          = (processSellPositions cfg price noFail ps idx s).map (fun r => (r.1, p :: r.2)) := by
        simp [processSellPositions, ht]
      rw [hok] at hstep
      simp only [Except.map] at hstep
      have hsold : soldPositions price (p :: ps) = soldPositions price ps := by
        simp [soldPositions, List.filter_cons, ht]
      have hkept : keptPositions price (p :: ps) = p :: keptPositions price ps := by
        simp [keptPositions, List.filter_cons, ht]
      refine ⟨?_, ?_, ?_, ?_, ?_⟩
      · rw [hstep]; rfl
      · rw [hstep, hkept]
        show p :: sellRem (processSellPositions cfg price noFail ps idx s)
          = p :: keptPositions price ps
        rw [hrem]
      · rw [hstep, hsold]
        exact hre
      · rw [hstep, hsold]
        exact hav
      · intro k hk
        rw [hstep]
        rw [hsold] at hk
        exact hfi k hk
    · obtain ⟨hok, hrem, hre, hav, hfi⟩ := ih (idx + 1) (sellStep cfg price p s)
      have hstep : processSellPositions cfg price noFail (p :: ps) idx s
          = processSellPositions cfg price noFail ps (idx + 1) (sellStep cfg price p s) := by
        simp [processSellPositions, ht, noFail]
      have hsold : soldPositions price (p :: ps) = p :: soldPositions price ps := by
        simp [soldPositions, List.filter_cons, ht]
      have hkept : keptPositions price (p :: ps) = keptPositions price ps := by
        simp [keptPositions, List.filter_cons, ht]
      have hre0 : (sellStep cfg price p s).realized_grid_profit
          = s.realized_grid_profit + ((price - p.entry_price) * p.qty - 0) := by
        simp [sellStep, hp]
      have hav0 : (sellStep cfg price p s).available_capital
          = s.available_capital + (price * p.qty - 0) := by
        simp [sellStep, hp]
      refine ⟨?_, ?_, ?_, ?_, ?_⟩
      · rw [hstep]; exact hok
      · rw [hstep, hrem, hkept]
      · rw [hstep, hre, hre0, hsold]
        simp [sumSellPnl]
        ring
      · rw [hstep, hav, hav0, hsold]
        simp [sumSellNotional]
        ring
      · intro k hk
        rw [hstep]
        apply hfi
        rw [hsold] at hk
        rcases hk with hk | hk
        · simp only [List.map_cons, List.mem_cons] at hk
          rcases hk with hk | hk
          · right
            subst hk
            cases hc : cfg.paper <;> simp [sellStep, hc]
          · left; exact hk
        · right
          have : (sellStep cfg price p s).grid_filled k
              = (if k = p.grid_price then false else s.grid_filled k) := by
            cases hc : cfg.paper <;> simp [sellStep, hc]
          rw [this]
          split <;> simp [hk]

theorem roundTo_bounds (d : ℕ) (x : ℚ) :
    x - 1 / (2 * 10 ^ d) < roundTo d x ∧ roundTo d x ≤ x + 1 / (2 * 10 ^ d) := by
  have h10 : (0 : ℚ) < 10 ^ d := by positivity
  have hf1 := Int.floor_le (x * 10 ^ d + 1/2)
  have hf2 := Int.sub_one_lt_floor (x * 10 ^ d + 1/2)
  unfold roundTo
  rw [round_eq]
  constructor
  · rw [lt_div_iff h10]
    have he : (x - 1 / (2 * 10 ^ d)) * 10 ^ d = x * 10 ^ d + 1/2 - 1 := by
      field_simp
      ring
    rw [he]
    exact hf2
  · rw [div_le_iff h10]
    have he : (x + 1 / (2 * 10 ^ d)) * 10 ^ d = x * 10 ^ d + 1/2 := by
      field_simp
      ring
    rw [he]
    exact hf1

theorem roundTo4_gap (a b : ℚ) (h : a + 1/10000 ≤ b) : roundTo 4 a < roundTo 4 b := by
  have ha := (roundTo_bounds 4 a).2
  have hb := (roundTo_bounds 4 b).1
  norm_num at ha hb
  linarith

theorem roundTo4_le (x : ℚ) : roundTo 4 x ≤ x + 1/20000 := by
  have := (roundTo_bounds 4 x).2
  norm_num at this
  linarith

theorem ensure_hedge_ratio_grid_filled (cfg : Cfg) (ts : ℤ) (tr price net : ℚ)
    (ret : Option ℚ) (s : St) :
    (ensure_hedge_ratio cfg ts tr price net ret s).grid_filled = s.grid_filled := by
  simp only [ensure_hedge_ratio]
  split_ifs <;> cases ret <;> simp

theorem downtrendSellLoop_grid_filled (cfg : Cfg) (price : ℚ) (ps : List Position) :
    ∀ (q : ℚ) (s : St),
    (downtrendSellLoop cfg price ps q s).1.grid_filled = s.grid_filled := by
  induction ps with
  | nil => intro q s; simp [downtrendSellLoop]
  | cons p ps ih =>
    intro q s
    simp only [downtrendSellLoop]
    split
    · exact ih q s
    · have key := ih (q - min p.qty q)
        (if cfg.paper then
          { s with available_capital := s.available_capital + price * min p.qty q
                   realized_grid_profit :=
                     s.realized_grid_profit + (price - p.entry_price) * min p.qty q }
          else s)
      have hstep : ((if cfg.paper then
          { s with available_capital := s.available_capital + price * min p.qty q
                   realized_grid_profit :=
                     s.realized_grid_profit + (price - p.entry_price) * min p.qty q }
          else s) : St).grid_filled = s.grid_filled := by
        cases hc : cfg.paper <;> simp [hc]
      split <;> exact key.trans hstep

theorem recenter_downtrend_grid_filled (cfg : Cfg) (ts : ℤ) (price : ℚ) (s : St) :
    (recenter_downtrend cfg ts price s).grid_filled = s.grid_filled := by
  simp only [recenter_downtrend]
  split
  · rfl
  · have h1 := downtrendSellLoop_grid_filled cfg price
      (List.insertionSort posDesc s.positions) (sumQty s.positions * (1/2)) s
    split
    · exact h1
    · exact (ensure_hedge_ratio_grid_filled cfg ts 1 price _ (some price) _).trans h1

theorem processBuyLevels_allFail (cfg : Cfg) (price os : ℚ) (ls : List ℚ) :
    ∀ (idx : ℕ) (s : St),
    runE (processBuyLevels cfg price os (fun _ => true) ls idx s) = s := by
  induction ls with
  | nil => intro idx s; rfl
  | cons l ls ih =>
    intro idx s
    simp only [processBuyLevels]
    split
    · split
      · exact ih idx s
      · rfl
    · exact ih idx s

/-!  Claim theorems. -/

/-- Claim C4, amended: in paper mode the sell pass liquidates exactly the
    positions whose target is reached (price at or above target_price),
    keeps the others, credits the full notional price * qty per sale, books
    pnl = (price - entry) * qty per sale (the fee charged by the sell pass
    is the literal 0.0 of the source, NOT notional * feeRate), and unmarks
    the originating grid level of every sold position. -/
theorem c4_sell_pass_paper (cfg : Cfg) (price : ℚ) (s : St) (hp : cfg.paper = true) :
    (runE (process_sell_grid cfg price noFail s)).positions
        = keptPositions price s.positions ∧
    (runE (process_sell_grid cfg price noFail s)).realized_grid_profit
        = s.realized_grid_profit + sumSellPnl price (soldPositions price s.positions) ∧
    (runE (process_sell_grid cfg price noFail s)).available_capital
        = s.available_capital + sumSellNotional price (soldPositions price s.positions) ∧
    ∀ p ∈ soldPositions price s.positions,
      (runE (process_sell_grid cfg price noFail s)).grid_filled p.grid_price = false := by
  obtain ⟨hok, hrem, hre, hav, hfi⟩ := processSellPositions_paper cfg price hp s.positions 0 s
  unfold process_sell_grid
  rw [hok]
  exact ⟨hrem, hre, hav, fun p hp2 => hfi p.grid_price (Or.inl (List.mem_map_of_mem _ hp2))⟩

/-- Claim C5, amended: a grid buy that passes the capital check deducts
    exactly qty * levelPrice * (1 + feeRate) from available capital (the
    clamp at zero never binds), marks the level filled, and creates the
    position with target price equal to levelPrice + spacing ROUNDED to 4
    decimals (not the exact sum the claim states). -/
theorem c5_buy_fill_effects (cfg : Cfg) (order_size level_price : ℚ) (s : St)
    (hcap : buyTotalCost cfg order_size level_price ≤ s.available_capital) :
    (buyStep cfg order_size level_price s).available_capital
        = s.available_capital
            - buyQty order_size level_price * level_price * (1 + cfg.spot_fee_rate) ∧
    (buyStep cfg order_size level_price s).grid_filled level_price = true ∧
    (buyStep cfg order_size level_price s).positions
        = s.positions ++ [⟨level_price, buyQty order_size level_price, level_price,
            roundTo 4 (level_price + buySpacing s level_price)⟩] := by
  refine ⟨?_, by simp [buyStep], rfl⟩
  have h0 : 0 ≤ s.available_capital - buyTotalCost cfg order_size level_price :=
    sub_nonneg.mpr hcap
  have h1 : (buyStep cfg order_size level_price s).available_capital
      = max 0 (s.available_capital - buyTotalCost cfg order_size level_price) := rfl
  rw [h1, max_eq_right h0]
  simp only [buyTotalCost]
  ring

/-- Claim C6, amended: a failing spot-buy placement call is NOT caught in
    the buy pass; the exception propagates and aborts the pass, though the
    strategy state is left unchanged for the failed and subsequent levels
    (the failing call precedes every mutation of its iteration). -/
theorem c6_buy_failure_leaves_state (cfg : Cfg) (price : ℚ) (s : St) :
    runE (process_buy_grid cfg price (fun _ => true) s) = s := by
  simp only [process_buy_grid]
  split
  · rfl
  · exact processBuyLevels_allFail cfg price _ s.grid_prices 0 s

/-- Claim C7, confirmed: the hedge scale-in never shrinks the open hedge
    quantity, and it is a strict no-op whenever the required margin
    addQty * price / leverage exceeds the free futures margin or the added
    notional addQty * price is below the minimum hedge notional. -/
theorem c7_ensure_hedge_no_shrink (cfg : Cfg) (ts : ℤ)
    (target_ratio price net_spot_qty : ℚ) (ret : Option ℚ) (s : St)
    (hnet : 0 < net_spot_qty) (hlev : 1 ≤ cfg.hedge_leverage) :
    hedgeQty s ≤ hedgeQty (ensure_hedge_ratio cfg ts target_ratio price net_spot_qty ret s) ∧
    ((s.futures_available_margin <
        net_spot_qty * (target_ratio - hedgeQty s / net_spot_qty) * price
          / (cfg.hedge_leverage : ℚ) ∨
      net_spot_qty * (target_ratio - hedgeQty s / net_spot_qty) * price
          < cfg.min_hedge_notional) →
      ensure_hedge_ratio cfg ts target_ratio price net_spot_qty ret s = s) := by
  have hmax : ((max cfg.hedge_leverage 1 : ℤ) : ℚ) = (cfg.hedge_leverage : ℚ) := by
    rw [max_eq_left hlev]
  have hcr : (if 0 < net_spot_qty then hedgeQty s / net_spot_qty else 0)
      = hedgeQty s / net_spot_qty := if_pos hnet
  simp only [ensure_hedge_ratio, hcr]
  split_ifs with h1 h2 h3 h4 h5
  · exact ⟨le_refl _, fun _ => rfl⟩
  · exact ⟨le_refl _, fun _ => rfl⟩
  · exact ⟨le_refl _, fun _ => rfl⟩
  · exact ⟨le_refl _, fun _ => rfl⟩
  · exact ⟨le_refl _, fun _ => rfl⟩
  · have hadd : 0 ≤ net_spot_qty * (target_ratio - hedgeQty s / net_spot_qty) := by
      have : hedgeQty s / net_spot_qty < target_ratio - 1/1000000 := lt_of_not_le h1
      nlinarith
    constructor
    · cases ret with
      | none => exact le_refl _
      | some e =>
        cases hh : s.hedge_position with
        | none =>
          simp only [hedgeQty, hh] at hadd ⊢
          simp only [zero_div] at hadd ⊢
          simpa using hadd
        | some old =>
          simp only [hedgeQty, hh] at hadd ⊢
          simpa using hadd
    · intro hor
      exfalso
      rw [hmax] at h5
      rcases hor with hm | hn
      · exact absurd hm (not_lt.mpr (le_of_not_lt h5))
      · exact h3 hn

/-- Claim C8, amended: closing the hedge always clears the hedge state; in
    paper modes the futures margin is restored by locked margin plus pnl,
    clamped at zero (never negative), and pnl is added to available
    capital; in live mode the in-memory ledger fields are left unchanged by
    the close (balances are refreshed from the exchange elsewhere). -/
theorem c8_close_hedge_ledger (cfg : Cfg) (price : ℚ) (s : St) (h : Hedge)
    (hh : s.hedge_position = some h) :
    (close_hedge cfg price s).hedge_position = none ∧
    (cfg.paper = true →
      (close_hedge cfg price s).futures_available_margin
        = max 0 (s.futures_available_margin
            + h.entry * h.qty / ((max cfg.hedge_leverage 1 : ℤ) : ℚ)
            + (h.entry - price) * h.qty) ∧
      (close_hedge cfg price s).available_capital
        = s.available_capital + (h.entry - price) * h.qty ∧
      0 ≤ (close_hedge cfg price s).futures_available_margin) ∧
    (cfg.paper = false →
      (close_hedge cfg price s).futures_available_margin = s.futures_available_margin ∧
      (close_hedge cfg price s).available_capital = s.available_capital) := by
  cases hc : cfg.paper <;> simp [close_hedge, hh, hc, le_max_left]

/-- Claim C9, amended: provided the chosen spacing is at least 0.0001 (one
    unit of the 4-decimal rounding of the level prices), the ladder built
    by initialization is sorted ascending, has pairwise distinct levels,
    and every level is strictly below the base price.  Without that bound
    the rounding can collapse adjacent levels onto each other and onto the
    base price. -/
theorem c9_ladder_shape (cfg : Cfg) (base_price atr : ℚ) (so : Option ℚ) (s : St)
    (hb : 0 < base_price) (hn : 1 ≤ cfg.grid_levels)
    (hs : 1/10000 ≤ initSpacing cfg base_price atr so) :
    List.Sorted (· ≤ ·) (init_lower_grid cfg base_price atr so s).grid_prices ∧
    (init_lower_grid cfg base_price atr so s).grid_prices.Nodup ∧
    ∀ x ∈ (init_lower_grid cfg base_price atr so s).grid_prices, x < base_price := by
  have hsp0 : (0 : ℚ) ≤ initSpacing cfg base_price atr so := le_trans (by norm_num) hs
  have hgp : (init_lower_grid cfg base_price atr so s).grid_prices
      = List.insertionSort (· ≤ ·) ((List.range cfg.grid_levels).map
          (fun i : ℕ =>
            roundTo 4 (base_price - initSpacing cfg base_price atr so * ((i : ℚ) + 1)))) :=
    rfl
  rw [hgp]
  set F : ℕ → ℚ :=
    fun i => roundTo 4 (base_price - initSpacing cfg base_price atr so * ((i : ℚ) + 1))
    with hF
  have hgap : ∀ i j : ℕ, i < j → F j < F i := by
    intro i j hij
    rw [hF]
    apply roundTo4_gap
    have h1 : (i : ℚ) + 1 ≤ (j : ℚ) := by exact_mod_cast hij
    have h2 : 0 ≤ initSpacing cfg base_price atr so * ((j : ℚ) - ((i : ℚ) + 1)) :=
      mul_nonneg hsp0 (sub_nonneg.mpr h1)
    nlinarith [hs]
  have hinj : ∀ i ∈ List.range cfg.grid_levels, ∀ j ∈ List.range cfg.grid_levels,
      F i = F j → i = j := by
    intro i _ j _ hf
    by_contra hne
    rcases Nat.lt_or_ge i j with hlt | hge
    · exact absurd hf (ne_of_gt (hgap i j hlt))
    · have : j < i := lt_of_le_of_ne hge (Ne.symm hne)
      exact absurd hf (ne_of_lt (hgap j i this))
  refine ⟨List.sorted_insertionSort _ _, ?_, ?_⟩
  · rw [(List.perm_insertionSort _ _).nodup_iff]
    exact List.Nodup.map_on hinj (List.nodup_range _)
  · intro x hx
    rw [(List.perm_insertionSort _ _).mem_iff] at hx
    obtain ⟨i, hi, hfi⟩ := List.mem_map.mp hx
    have hb1 : F i ≤ base_price - initSpacing cfg base_price atr so * ((i : ℚ) + 1) + 1/20000 := by
      rw [hF]
      exact roundTo4_le _
    have hi1 : (1 : ℚ) ≤ (i : ℚ) + 1 := by
      have : (0 : ℚ) ≤ (i : ℚ) := Nat.cast_nonneg i
      linarith
    have hspge : initSpacing cfg base_price atr so * 1
        ≤ initSpacing cfg base_price atr so * ((i : ℚ) + 1) :=
      mul_le_mul_of_nonneg_left hi1 hsp0
    rw [← hfi]
    nlinarith [hs]

/-- Claim C10, confirmed: on a bar where the deferred recenter is pending
    but no hedge is open, the hedge-exit evaluation returns the state
    unchanged, so the deferred full recenter neither executes nor clears
    the flag; moreover, with no free futures margin (so every scale-in is
    rejected), the flag stays set and the hedge stays closed over any
    further sequence of processed bars. -/
theorem c10_pending_without_hedge (cfg : Cfg) (ts : ℤ)
    (price spot_unrealized ema_fast ema_mid atr_14 atr_28 : ℚ) (bars : List BarIn) (s : St)
    (hh : s.hedge_position = none) (hm : s.futures_available_margin = 0)
    (hp : s.pending_recenter.isSome = true) :
    manage_hedge_exit cfg ts price spot_unrealized ema_fast ema_mid atr_14 atr_28 s = s ∧
    (processBars cfg bars s).pending_recenter.isSome = true ∧
    (processBars cfg bars s).hedge_position = none := by
  have hs := processBars_stuck cfg bars s ⟨hh, hm, hp⟩
  exact ⟨manage_hedge_exit_hedge_none cfg ts price spot_unrealized ema_fast ema_mid
    atr_14 atr_28 s hh, hs.2.2, hs.1⟩

/-- Claim C1, amended: the futures margin never goes negative across any
    sequence of processed bars (every write to it is clamped at zero), and
    the buy and sell passes keep available capital non-negative; however
    the paper-mode hedge-close write to available capital is NOT clamped,
    and a hedge closed at a loss larger than the free cash drives available
    capital below zero (see the concrete run of the counterexample). -/
theorem c1_ledger_nonneg (cfg : Cfg) (bars : List BarIn) (price : ℚ) (s : St)
    (hm : 0 ≤ s.futures_available_margin) (ha : 0 ≤ s.available_capital)
    (hp : 0 ≤ price) (hq : ∀ p ∈ s.positions, 0 ≤ p.qty) :
    0 ≤ (processBars cfg bars s).futures_available_margin ∧
    0 ≤ (runE (process_buy_grid cfg price noFail s)).available_capital ∧
    0 ≤ (runE (process_sell_grid cfg price noFail s)).available_capital :=
  ⟨processBars_margin_nonneg cfg bars s hm,
   (process_buy_grid_frame cfg price noFail s).2.2.2.2.2.2 ha,
   (process_sell_grid_frame cfg price noFail s).2.2.2.2.2.2 ⟨hp, hq, ha⟩⟩

/-- Claim C2, amended: on a bar whose recenter trigger fires with the trend
    classified down, the decision layer itself leaves the ladder
    (grid_prices, grid_spacing, grid_filled) unchanged and sets
    pending_recenter; the full rebuild is performed only by the hedge-exit
    evaluation when it observes pending_recenter set and a non-negative
    hedge pnl - which can already happen later in the SAME bar, since the
    hedge pass runs after the recenter decision (see the counterexample). -/
theorem c2_down_recenter_defers (cfg : Cfg) (ts : ℤ) (price atr_14 atr_28 : ℚ) (row : Row)
    (s : St) (ts2 : ℤ) (price2 spotU emaF emaM a14 a28 : ℚ) (s2 : St) (h2 : Hedge)
    (hgrid : ¬ s.grid_prices = [])
    (hsp : ¬ recenterSpacingGuess cfg atr_14 s ≤ 0)
    (hneed : needRecenterB cfg price (recenterSpacingGuess cfg atr_14 s) s = true)
    (hdown : get_trend_direction price row.ema_fast row.ema_mid row.ema_slow = Trend.down)
    (hh2 : s2.hedge_position = some h2)
    (hp2 : s2.pending_recenter.isSome = true)
    (hpnl : 0 ≤ (h2.entry - price2) * h2.qty) :
    (maybe_recenter_grid cfg ts price atr_14 atr_28 row s).grid_prices = s.grid_prices ∧
    (maybe_recenter_grid cfg ts price atr_14 atr_28 row s).grid_spacing = s.grid_spacing ∧
    (maybe_recenter_grid cfg ts price atr_14 atr_28 row s).grid_filled = s.grid_filled ∧
    (maybe_recenter_grid cfg ts price atr_14 atr_28 row s).pending_recenter = some ts ∧
    manage_hedge_exit cfg ts2 price2 spotU emaF emaM a14 a28 s2
      = { do_full_recenter cfg price2 a14 a28 s2 with pending_recenter := none } := by
  have hdec := recenter_downtrend_frame cfg ts price s
  have hfil := recenter_downtrend_grid_filled cfg ts price s
  have part1 : (maybe_recenter_grid cfg ts price atr_14 atr_28 row s)
      = { recenter_downtrend cfg ts price s with pending_recenter := some ts } := by
    simp only [maybe_recenter_grid, if_neg hgrid, if_neg hsp, hneed, Bool.not_true,
      Bool.false_eq_true, if_false, hdown]
  have part2 : manage_hedge_exit cfg ts2 price2 spotU emaF emaM a14 a28 s2
      = { do_full_recenter cfg price2 a14 a28 s2 with pending_recenter := none } := by
    simp only [manage_hedge_exit, hh2]
    rw [if_pos ⟨hp2, hpnl⟩]
  rw [part1]
  exact ⟨hdec.2.1, hdec.2.2.1, hfil, rfl, part2⟩

/-- Claim C3, amended: whenever the hedge-exit evaluation itself closes the
    open hedge (deferred recenter, max-loss, stop-loss reversal, reversal
    cut; a take-profit close can only fire with the flag already clear),
    pending_recenter is none afterwards.  The hedge closes performed inside
    an uptrend recenter or a direct sideways full recenter do NOT clear the
    flag (see the counterexample run). -/
theorem c3_exit_close_clears_pending (cfg : Cfg) (ts : ℤ)
    (price spot_unrealized ema_fast ema_mid atr_14 atr_28 : ℚ) (s : St)
    (hopen : s.hedge_position.isSome = true) :
    (manage_hedge_exit cfg ts price spot_unrealized ema_fast ema_mid
        atr_14 atr_28 s).hedge_position = none →
    (manage_hedge_exit cfg ts price spot_unrealized ema_fast ema_mid
        atr_14 atr_28 s).pending_recenter = none := by
  cases hh : s.hedge_position with
  | none => rw [hh] at hopen; simp at hopen
  | some h =>
    simp only [manage_hedge_exit, hh]
    split_ifs with hA hML hTP hSL hRC
    · intro _; rfl
    · intro _; rfl
    · intro _
      rw [(rebalance_frame _ price _).2.2.2.2.1, close_hedge_pending]
      cases hpd : s.pending_recenter with
      | none => rfl
      | some r =>
        exfalso
        exact hA ⟨by simp [hpd], le_of_lt (lt_of_lt_of_le hTP.1 hTP.2)⟩
    · intro _; rfl
    · intro _; rfl
    · intro habs
      rw [hh] at habs
      cases habs

/-!  Concrete runs.  Rational arithmetic is made reducible locally so that
     kernel evaluation can decide the propositions below. -/

section

attribute [local semireducible] Rat.add Rat.mul Rat.inv Rat.sub

set_option maxRecDepth 100000

set_option maxHeartbeats 4000000

/-- Counterexample to Claim C1 as stated: over the 8-bar run c1Bars the
    paper-mode hedge close adds a loss larger than the remaining free cash
    to available_capital, which ends strictly negative. -/
theorem c1_capital_goes_negative :
    (processBars cfgStd c1Bars initStd).available_capital < 0 := by decide

/-- Witness for the amended C1 at a concrete input. -/
theorem c1_witness :
    0 ≤ (processBars cfgStd [] initStd).futures_available_margin ∧
    0 ≤ (runE (process_buy_grid cfgStd 100 noFail initStd)).available_capital ∧
    0 ≤ (runE (process_sell_grid cfgStd 100 noFail initStd)).available_capital :=
  c1_ledger_nonneg cfgStd [] 100 initStd (by decide) (by decide) (by decide) (by decide)

/-- Counterexample to Claim C2 as stated: on bar 3 of the concrete run the
    recenter trigger fires with the trend down and the decision layer only
    sets pending_recenter, yet the full bar processing of that SAME bar
    already clears the flag and rebuilds the ladder (the hedge opened on
    this bar has pnl 0, so the exit evaluation immediately performs the
    deferred rebuild) - not on a strictly later bar. -/
theorem c2_same_bar_rebuild :
    get_trend_direction 84 85 86 87 = Trend.down ∧
    needRecenterB cfgStd 84
      (recenterSpacingGuess cfgStd 2 (processBars cfgStd preBars initStd))
      (processBars cfgStd preBars initStd) = true ∧
    (maybe_recenter_grid cfgStd 2000 84 2 2 (rowOf 2 2 85 86 87)
        (processBars cfgStd preBars initStd)).pending_recenter = some 2000 ∧
    (maybe_recenter_grid cfgStd 2000 84 2 2 (rowOf 2 2 85 86 87)
        (processBars cfgStd preBars initStd)).grid_prices
      = (processBars cfgStd preBars initStd).grid_prices ∧
    (processBar cfgStd c2Bar3 (processBars cfgStd preBars initStd)).pending_recenter = none ∧
    (processBar cfgStd c2Bar3 (processBars cfgStd preBars initStd)).grid_prices
      ≠ (processBars cfgStd preBars initStd).grid_prices := by decide

/-- Witness for the amended C2 at a concrete input. -/
theorem c2_witness :
    (maybe_recenter_grid cfgStd 2000 84 2 2 (rowOf 2 2 85 86 87)
        (processBars cfgStd preBars initStd)).pending_recenter = some 2000 ∧
    manage_hedge_exit cfgStd 10 100 (-5) 1 2 2 2 c2HedgeSt
      = { do_full_recenter cfgStd 100 2 2 c2HedgeSt with pending_recenter := none } :=
  ⟨(c2_down_recenter_defers cfgStd 2000 84 2 2 (rowOf 2 2 85 86 87)
      (processBars cfgStd preBars initStd) 10 100 (-5) 1 2 2 2 c2HedgeSt ⟨1, 100, 0⟩
      (by decide) (by decide) (by decide) (by decide) rfl rfl (by decide)).2.2.2.1,
   (c2_down_recenter_defers cfgStd 2000 84 2 2 (rowOf 2 2 85 86 87)
      (processBars cfgStd preBars initStd) 10 100 (-5) 1 2 2 2 c2HedgeSt ⟨1, 100, 0⟩
      (by decide) (by decide) (by decide) (by decide) rfl rfl (by decide)).2.2.2.2⟩

/-- Counterexample to Claim C3 as stated: bar 3 of the concrete run opens a
    hedge and defers a recenter; bar 4 performs an uptrend recenter that
    closes that hedge WITHOUT clearing pending_recenter, leaving the flag
    set with no hedge open. -/
theorem c3_recenter_close_keeps_flag :
    (processBars cfgStd (preBars ++ [c3Bar3]) initStd).hedge_position.isSome = true ∧
    (processBars cfgStd (preBars ++ [c3Bar3]) initStd).pending_recenter = some 2000 ∧
    (processBars cfgStd (preBars ++ [c3Bar3, c3Bar4]) initStd).hedge_position = none ∧
    (processBars cfgStd (preBars ++ [c3Bar3, c3Bar4]) initStd).pending_recenter
      = some 2000 := by decide

/-- Witness for the amended C3 at a concrete input: a max-loss close
    performed by the exit evaluation itself clears the pending flag. -/
theorem c3_witness :
    (manage_hedge_exit cfgStd 0 120 (-10) 1 2 2 2 c2HedgeSt).pending_recenter = none :=
  c3_exit_close_clears_pending cfgStd 0 120 (-10) 1 2 2 2 c2HedgeSt rfl (by decide)

/-- Counterexample to Claim C4 as stated: the paper sell pass books
    pnl = 2 for a position of qty 1 bought at 98 and sold at 100, not the
    claimed notional - qty*entry - notional*feeRate = 1.9 (the fee the
    code charges on the sell side is the literal zero). -/
theorem c4_fee_is_zero :
    (runE (process_sell_grid cfgStd 100 noFail c4State)).realized_grid_profit
      = c4State.realized_grid_profit + 2 ∧
    c4State.realized_grid_profit + 2
      ≠ c4State.realized_grid_profit
          + (100 * 1 - 1 * 98 - 100 * 1 * cfgStd.spot_fee_rate) := by decide

/-- Witness for the amended C4 at a concrete input. -/
theorem c4_witness :
    (runE (process_sell_grid cfgStd 100 noFail c4State)).positions
        = keptPositions 100 c4State.positions ∧
    (runE (process_sell_grid cfgStd 100 noFail c4State)).realized_grid_profit
        = c4State.realized_grid_profit
            + sumSellPnl 100 (soldPositions 100 c4State.positions) ∧
    (runE (process_sell_grid cfgStd 100 noFail c4State)).available_capital
        = c4State.available_capital
            + sumSellNotional 100 (soldPositions 100 c4State.positions) :=
  ⟨(c4_sell_pass_paper cfgStd 100 c4State rfl).1,
   (c4_sell_pass_paper cfgStd 100 c4State rfl).2.1,
   (c4_sell_pass_paper cfgStd 100 c4State rfl).2.2.1⟩

/-- Counterexample to Claim C5 as stated: with level price 1 and spacing
    0.00003 the created position's target price is round(1.00003, 4) = 1,
    not levelPrice + currentSpacing = 1.00003. -/
theorem c5_target_is_rounded :
    (runE (process_buy_grid cfgStd 1 noFail c5State)).positions = [⟨1, 9, 1, 1⟩] ∧
    (1 : ℚ) + c5State.grid_spacing ≠ 1 := by decide

/-- Witness for the amended C5 at a concrete input. -/
theorem c5_witness :
    (buyStep cfgStd 90 98 initStd).grid_filled 98 = true ∧
    (buyStep cfgStd 90 98 initStd).available_capital
        = initStd.available_capital - buyQty 90 98 * 98 * (1 + cfgStd.spot_fee_rate) :=
  ⟨(c5_buy_fill_effects cfgStd 90 98 initStd (by decide)).2.1,
   (c5_buy_fill_effects cfgStd 90 98 initStd (by decide)).1⟩

/-- Counterexample to Claim C6 as stated: a collaborator failure on the
    second sell of a bar is NOT caught at the call site - the pass aborts
    with an error - and the mutations of the first, successful sell
    (capital credit and realized pnl) are kept while the positions list is
    left untouched: a partial mutation. -/
theorem c6_sell_abort_partial_mutation :
    isOkB (process_sell_grid cfgStd 100 failSecond c6State) = false ∧
    (runE (process_sell_grid cfgStd 100 failSecond c6State)).available_capital
      = c6State.available_capital + 100 ∧
    (runE (process_sell_grid cfgStd 100 failSecond c6State)).positions
      = c6State.positions ∧
    (runE (process_sell_grid cfgStd 100 failSecond c6State)).realized_grid_profit
      = c6State.realized_grid_profit + 10 := by decide

/-- Witness for C7 at a concrete input: the required margin 500 exceeds the
    free margin 250, so the scale-in is a strict no-op. -/
theorem c7_witness :
    hedgeQty initStd ≤ hedgeQty (ensure_hedge_ratio cfgStd 0 1 1000 1 none initStd) ∧
    ensure_hedge_ratio cfgStd 0 1 1000 1 none initStd = initStd :=
  ⟨(c7_ensure_hedge_no_shrink cfgStd 0 1 1000 1 none initStd (by decide) (by decide)).1,
   (c7_ensure_hedge_no_shrink cfgStd 0 1 1000 1 none initStd (by decide) (by decide)).2
     (Or.inl (by decide))⟩

/-- Counterexample to Claim C8 as stated: in live mode the close clears the
    hedge but leaves futures_available_margin untouched (the claimed
    restoration of locked margin plus pnl does not happen in memory). -/
theorem c8_live_margin_not_restored :
    (close_hedge cfgLive 90 c8State).hedge_position = none ∧
    (close_hedge cfgLive 90 c8State).futures_available_margin
      = c8State.futures_available_margin ∧
    c8State.futures_available_margin
      ≠ c8State.futures_available_margin + 100 * 1 / (cfgLive.hedge_leverage : ℚ)
          + (100 - 90) * 1 := by decide

/-- Witness for the amended C8 at a concrete input (paper mode). -/
theorem c8_witness :
    (close_hedge cfgStd 90 c8State).hedge_position = none ∧
    (close_hedge cfgStd 90 c8State).available_capital
      = c8State.available_capital + (100 - 90) * 1 :=
  ⟨(c8_close_hedge_ledger cfgStd 90 c8State ⟨1, 100, 0⟩ rfl).1,
   ((c8_close_hedge_ledger cfgStd 90 c8State ⟨1, 100, 0⟩ rfl).2.1 rfl).2.1⟩

/-- Counterexample to Claim C9 as stated: with base price 1 and prior
    spacing 0.00001 both generated levels round to 1, so the ladder is
    [1, 1] - not pairwise distinct, and not strictly below the base
    price. -/
theorem c9_tiny_spacing_collapses :
    (init_lower_grid cfgTwo 1 0 (some (1/100000)) initStd).grid_prices = [1, 1] ∧
    ¬ (init_lower_grid cfgTwo 1 0 (some (1/100000)) initStd).grid_prices.Nodup ∧
    ¬ ((1 : ℚ) < 1) := by decide

/-- Witness for the amended C9 at a concrete input. -/
theorem c9_witness :
    List.Sorted (· ≤ ·) (init_lower_grid cfgStd 100 2 none initStd).grid_prices ∧
    (init_lower_grid cfgStd 100 2 none initStd).grid_prices.Nodup :=
  ⟨(c9_ladder_shape cfgStd 100 2 none initStd (by decide) (by decide) (by decide)).1,
   (c9_ladder_shape cfgStd 100 2 none initStd (by decide) (by decide) (by decide)).2.1⟩

/-- Witness for C10 at a concrete input. -/
theorem c10_witness :
    manage_hedge_exit cfgStd 99 80 (-5) 1 2 2 2 stuckStEx = stuckStEx ∧
    (processBars cfgStd [⟨99, 80, rowOf 2 2 1 2 3⟩] stuckStEx).pending_recenter.isSome
      = true ∧
    (processBars cfgStd [⟨99, 80, rowOf 2 2 1 2 3⟩] stuckStEx).hedge_position = none :=
  c10_pending_without_hedge cfgStd 99 80 (-5) 1 2 2 2 [⟨99, 80, rowOf 2 2 1 2 3⟩]
    stuckStEx rfl rfl rfl

end

end GridBot
